import Mathlib

/-!
Lock box access-control state machine (`AzureIoT/app.c`)

A shallow embedding of the keypad-driven state machine of `app.c`, together with
the key scan of `keyboard.c`.

Conventions of the embedding

* C `char` values are Lean `Char`s, the terminator is `NUL`.
* The two 7-byte buffers `secretCode` and `savedCode` are lists of bytes; the string
  functions of `<string.h>` used by the program are embedded over such lists.
* `uint8_t wrongAttempts` is a `Nat` with the increment taken modulo `2^8`.
* Globals and function-local statics are the fields of `Machine`; every C function that
  touches them takes the machine and returns the new one.
* Calls that only act on the outside world (`unlock`, `nanosleep`, `SendTelemetry`,
  `Log_Debug`) are recorded, in order, in `Machine.trace`.
* A failing peripheral read is the value `none` of the corresponding tick input.
-/

namespace LockBox

/-! ## Enumerations and the session record -/

/-- Levels of a digital line (`applibs/gpio.h`). -/
inductive GPIO_Value_Type where
  | GPIO_Value_Low
  | GPIO_Value_High
  deriving DecidableEq, Repr

/-- The C enum `lockStateEnum` takes its two values from `GPIO_Value_Type`. -/
abbrev lockStateEnum := GPIO_Value_Type

/-- `LOCK_OPEN = GPIO_Value_High`. -/
abbrev LOCK_OPEN : lockStateEnum := GPIO_Value_Type.GPIO_Value_High

/-- `LOCK_CLOSED = GPIO_Value_Low`. -/
abbrev LOCK_CLOSED : lockStateEnum := GPIO_Value_Type.GPIO_Value_Low

inductive operationTypeEnum where
  | PICK
  | POST
  deriving DecidableEq, Repr

inductive appStateEnum where
  | NONE
  | SELECT
  | CODE
  | ID
  | OPEN
  | CLOSED
  | WAIT
  | INVALID_CREDENTIALS
  | DONE
  | ERROR
  | DRAWER_LOCKED
  deriving DecidableEq, Repr

inductive actionEnum where
  | NOTHING
  | NEXT_SCREEN
  | PREVIOUS_SCREEN
  | ADD_TO_VALUE
  | REMOVE_FROM_VALUE
  deriving DecidableEq, Repr

structure appStateContainer where
  appState : appStateEnum
  operationType : operationTypeEnum
  lockState : lockStateEnum
  isKeyPressed : Bool
  redrawRequired : Bool
  isReopen : Bool
  isValidationSuccessful : Bool
  isEmpty : Bool
  wrongAttempts : Nat
  alert : Bool
  deriving DecidableEq, Repr

/-- Calls into the outside world, in the order in which the program makes them. -/
inductive Event where
  | Log_Debug (msg : String)
  | SendTelemetry (key value : String)
  | unlock
  | nanosleep (tv_sec : Nat)
  deriving DecidableEq, Repr

/-- The globals of `app.c` and the statics of its functions. -/
structure Machine where
  /-- The file-level `bool alert`. -/
  alert : Bool
  /-- The buffer `static char secretCode[7]`. -/
  secretCode : List Char
  /-- The buffer `static char savedCode[7]`. -/
  savedCode : List Char
  /-- The static `previousState` of `stateChanged`. -/
  stateChanged_previousState : appStateEnum
  /-- The static `previousState` of `lockStateChanged`. -/
  lockStateChanged_previousState : GPIO_Value_Type
  /-- The static `appState` of `runApp`. -/
  appState : appStateContainer
  /-- The static `fstRun` of `runApp`. -/
  fstRun : Bool
  /-- Outside-world calls made so far. -/
  trace : List Event
  deriving DecidableEq, Repr

/-! ## C strings over byte lists -/

/-- The string terminator. -/
abbrev NUL : Char := Char.ofNat 0

/-- C `strlen`: the number of bytes before the first `NUL`. -/
def strlen : List Char → Nat
  | [] => 0
  | c :: cs => if c = NUL then 0 else strlen cs + 1

/-- The bytes of a buffer before its first `NUL`: the string the buffer holds. -/
def cstr : List Char → List Char
  | [] => []
  | c :: cs => if c = NUL then [] else c :: cstr cs

/-- C `strcmp`: zero exactly when both buffers hold the same string, otherwise the sign of
the first differing byte. Bytes past the end of a list read as `NUL`. -/
def strcmp : List Char → List Char → Int
  | [], [] => 0
  | [], b :: _ => if b = NUL then 0 else -1
  | a :: _, [] => if a = NUL then 0 else 1
  | a :: as, b :: bs =>
    if a = b then (if a = NUL then 0 else strcmp as bs)
    else if a.toNat < b.toNat then -1 else 1

/-- C `strcpy dst src`: the bytes of `src` up to and including its first `NUL` overwrite the
beginning of `dst`; the bytes of `dst` behind them stay. -/
def strcpy : List Char → List Char → List Char
  | dst, [] => NUL :: dst.tail
  | dst, c :: cs => if c = NUL then NUL :: dst.tail else c :: strcpy dst.tail cs

/-! ## The keypad (`keyboard.c`) -/

/-- The table `matrix[4][4]`, indexed by row and then by column. -/
def matrix : List (List Char) :=
  [['1', '2', '3', 'A'],
   ['4', '5', '6', 'B'],
   ['7', '8', '9', 'C'],
   ['*', '0', '#', 'D']]

/-- `checkForKeyPress(&key)` when no line operation fails, as the character it leaves in
`key`, which `runApp` has set to `NUL` before: columns `i = 0..3` are driven low in turn and
the rows `j = 0..3` are read; `rowValue i j` is the level of row `j` while column `i` is low.
The first low row decides. -/
def checkForKeyPress (rowValue : Nat → Nat → GPIO_Value_Type) : Char :=
  let scan := (List.range 4).flatMap (fun i => (List.range 4).map (fun j => (i, j)))
  match scan.find? (fun p => decide (rowValue p.1 p.2 = GPIO_Value_Type.GPIO_Value_Low)) with
  | some p => (matrix.getD p.2 []).getD p.1 NUL
  | none => NUL

/-! ## The functions of `app.c` -/

/-- The state of the program before the first call of `runApp`: C zero-initialises statics,
the buffers are `""`, `alert` is `false` and `fstRun` is `true`. -/
def initial : Machine :=
  { alert := false
    secretCode := List.replicate 7 NUL
    savedCode := List.replicate 7 NUL
    stateChanged_previousState := appStateEnum.NONE
    lockStateChanged_previousState := GPIO_Value_Type.GPIO_Value_Low
    appState :=
      { appState := appStateEnum.NONE
        operationType := operationTypeEnum.PICK
        lockState := GPIO_Value_Type.GPIO_Value_Low
        isKeyPressed := false
        redrawRequired := false
        isReopen := false
        isValidationSuccessful := false
        isEmpty := false
        wrongAttempts := 0
        alert := false }
    fstRun := true
    trace := [] }

/-- `stateChanged(currentState)`. -/
def stateChanged (currentState : appStateEnum) (m : Machine) : Bool × Machine :=
  if currentState ≠ m.stateChanged_previousState then
    (true, { m with stateChanged_previousState := currentState })
  else
    (false, m)

/-- `saveSecretCode()`: `strcpy(savedCode, secretCode)`. -/
def saveSecretCode (m : Machine) : Machine :=
  { m with savedCode := strcpy m.savedCode m.secretCode }

/-- `lockStateChanged(&appState.lockState)`; `gpio` is what `GPIO_GetValue` delivers, `none`
when it fails. On failure the function executes `return -1`, which its return type `bool`
turns into `true`, and writes nothing. -/
def lockStateChanged (gpio : Option GPIO_Value_Type) (m : Machine) : Bool × Machine :=
  match gpio with
  | none => (true, m)
  | some lockState =>
    if lockState ≠ m.lockStateChanged_previousState then
      (true, { m with
        appState := { m.appState with lockState := lockState }
        lockStateChanged_previousState := lockState })
    else
      (false, m)

/-- `clearSecretCode()`: bytes `0..5` of `secretCode` are set to `NUL`. -/
def clearSecretCode (m : Machine) : Machine :=
  { m with secretCode := (List.range 6).foldl (fun buf i => buf.set i NUL) m.secretCode }

/-- `isValidCode()`. -/
def isValidCode (m : Machine) : Bool :=
  if strcmp m.secretCode m.savedCode = 0 then true else false

/-- `keyToAction(key)`. -/
def keyToAction (key : Char) : actionEnum :=
  if key = '!' ∨ key = '#' ∨ key = 'A' ∨ key = 'B' then actionEnum.NEXT_SCREEN
  else if key = '*' then actionEnum.PREVIOUS_SCREEN
  else if key = 'D' then actionEnum.REMOVE_FROM_VALUE
  else if key = '1' ∨ key = '2' ∨ key = '3' ∨ key = '4' ∨ key = '5' ∨ key = '6'
      ∨ key = '7' ∨ key = '8' ∨ key = '9' ∨ key = '0' then actionEnum.ADD_TO_VALUE
  else actionEnum.NOTHING

/-- `isValidCodeValue()`. -/
def isValidCodeValue (m : Machine) : Bool :=
  if strlen m.secretCode = 6 then true else false

/-- The statements under `case CODE:` of `nextScreen`, which `case SELECT:` falls into when
its own `if` is not taken. -/
def nextScreen_CODE (keyPressed : Char) (m : Machine) : Bool × Machine :=
  if isValidCodeValue m = true ∧ keyPressed = '#' then
    if m.appState.isEmpty = false ∧ isValidCode m = false then
      (true, { m with appState := { m.appState with
        wrongAttempts := (m.appState.wrongAttempts + 1) % 256
        appState := appStateEnum.INVALID_CREDENTIALS } })
    else
      (true, { m with appState := { m.appState with appState := appStateEnum.WAIT } })
  else
    (false, m)

/-- `nextScreen(keyPressed, appState)`. In `case WAIT:` and `case OPEN:` the condition
`keyPressed = '!' && appState->lockState == ...` assigns to the local `keyPressed`, so that
it is the comparison of `lockState` alone that decides. -/
def nextScreen (keyPressed : Char) (m : Machine) : Bool × Machine :=
  match m.appState.appState with
  | appStateEnum.SELECT =>
    if keyPressed = 'A' then
      (true, { m with appState := { m.appState with
        appState := appStateEnum.CODE
        operationType := operationTypeEnum.PICK } })
    else
      nextScreen_CODE keyPressed m
  | appStateEnum.CODE => nextScreen_CODE keyPressed m
  | appStateEnum.WAIT =>
    if m.appState.lockState = LOCK_OPEN then
      let m1 := clearSecretCode m
      (true, { m1 with appState := { m1.appState with appState := appStateEnum.OPEN } })
    else
      (false, m)
  | appStateEnum.OPEN =>
    if m.appState.lockState = LOCK_CLOSED then
      (true, { m with
        appState := { m.appState with appState := appStateEnum.CLOSED }
        trace := m.trace ++ [Event.SendTelemetry "LockClosed" "Lock is now closed."] })
    else
      (false, m)
  | appStateEnum.CLOSED =>
    if keyPressed = 'A' then
      (true, { m with appState := { m.appState with appState := appStateEnum.SELECT } })
    else if keyPressed = 'B' then
      (true, { m with appState := { m.appState with
        appState := appStateEnum.WAIT
        isReopen := true } })
    else
      (false, m)
  | appStateEnum.INVALID_CREDENTIALS =>
    let m1 := clearSecretCode m
    if m1.appState.wrongAttempts ≥ 3 then
      (true, { m1 with appState := { m1.appState with
        appState := appStateEnum.DRAWER_LOCKED } })
    else
      (true, { m1 with appState := { m1.appState with appState := appStateEnum.CODE } })
  | appStateEnum.DRAWER_LOCKED =>
    (true, { m with appState := { m.appState with
      appState := appStateEnum.SELECT
      wrongAttempts := 0 } })
  | _ => (false, m)

/-- `previousScreen(appState)`. -/
def previousScreen (m : Machine) : Bool × Machine :=
  match m.appState.appState with
  | appStateEnum.CODE =>
    let m1 : Machine :=
      { m with appState := { m.appState with appState := appStateEnum.SELECT } }
    (true, clearSecretCode m1)
  | _ => (false, m)

/-- `updateCodeValue(c)`. -/
def updateCodeValue (c : Char) (m : Machine) : Bool × Machine :=
  let len := strlen m.secretCode
  if len = 6 then (false, m)
  else (true, { m with secretCode := m.secretCode.set len c })

/-- `removeDigitFromCodeValue()`. -/
def removeDigitFromCodeValue (m : Machine) : Bool × Machine :=
  let len := strlen m.secretCode
  if len = 0 then (false, m)
  else (true, { m with secretCode := m.secretCode.set (len - 1) NUL })

/-- The first statement of `doAction`: the one-shot alert on the key `'!'`. -/
def doAction_alert (key : Char) (m : Machine) : Machine :=
  if key = '!' ∧ m.appState.appState ≠ appStateEnum.OPEN
      ∧ m.appState.appState ≠ appStateEnum.WAIT ∧ m.alert = false then
    { m with
      trace := m.trace ++
        [Event.Log_Debug "Alert!\n", Event.SendTelemetry "ButtonPress" "Alert! Lock open."]
      alert := true }
  else m

/-- `doAction(key, appState)`. -/
def doAction (key : Char) (m : Machine) : Bool × Machine :=
  let m1 := doAction_alert key m
  match keyToAction key with
  | actionEnum.NEXT_SCREEN => nextScreen key m1
  | actionEnum.PREVIOUS_SCREEN => previousScreen m1
  | actionEnum.ADD_TO_VALUE =>
    if m1.appState.appState = appStateEnum.CODE then updateCodeValue key m1 else (false, m1)
  | actionEnum.REMOVE_FROM_VALUE =>
    if m1.appState.appState = appStateEnum.CODE then removeDigitFromCodeValue m1
    else (false, m1)
  | actionEnum.NOTHING => (false, m1)

/-- `manageState(isNewState, appState)`. The result of `unlock()` is not looked at. -/
def manageState (isNewState : Bool) (m : Machine) : Machine :=
  match m.appState.appState with
  | appStateEnum.WAIT =>
    if isNewState = true then
      if m.appState.isReopen = true then
        { m with
          trace := m.trace ++
            [Event.unlock, Event.SendTelemetry "LockOpened" "Lock reopened."]
          appState := { m.appState with isReopen := false } }
      else if m.appState.isEmpty = true then
        let m1 : Machine := { m with appState := { m.appState with isEmpty := false } }
        let m2 := saveSecretCode m1
        { m2 with
          trace := m2.trace ++
            [Event.unlock, Event.SendTelemetry "LockOpened" "Lock opened to store item."] }
      else if isValidCodeValue m = true then
        if isValidCode m = true then
          { m with
            appState := { m.appState with isEmpty := true, wrongAttempts := 0 }
            trace := m.trace ++
              [Event.unlock, Event.SendTelemetry "LockOpened" "Lock reopened to pick up item"] }
        else m
      else m
    else m
  | appStateEnum.INVALID_CREDENTIALS => { m with trace := m.trace ++ [Event.nanosleep 3] }
  | appStateEnum.DRAWER_LOCKED => { m with trace := m.trace ++ [Event.nanosleep 60] }
  | _ => m

/-- `appStateStructInit(appState)`. -/
def appStateStructInit (_a : appStateContainer) : appStateContainer :=
  { appState := appStateEnum.SELECT
    operationType := operationTypeEnum.PICK
    isKeyPressed := false
    redrawRequired := true
    isReopen := false
    isValidationSuccessful := true
    lockState := GPIO_Value_Type.GPIO_Value_Low
    isEmpty := true
    wrongAttempts := 0
    alert := false }

/-- `draw(isNewState, appState)`: its first statement is `return 0;`. -/
def draw (_isNewState : Bool) (_a : appStateContainer) : Int := 0

/-- The beginning of `runApp`: the sensor is polled and, in the first call, the session
record is initialised (after the poll, so that the first call overwrites what the poll wrote
to `lockState`). Returns the local `changed` as well. -/
def runApp_poll (gpio : Option GPIO_Value_Type) (m : Machine) : Bool × Machine :=
  let (changed, m1) := lockStateChanged gpio m
  if m1.fstRun = true then
    (changed, { m1 with appState := appStateStructInit m1.appState, fstRun := false })
  else (changed, m1)

/-- The first part of `runApp`, up to and excluding the call of `checkForKeyPress`: after
the poll, the forced action `'!'` is performed in the two auto-advancing states or when
`lockStateChanged` returned `true`. -/
def runApp_events (gpio : Option GPIO_Value_Type) (m : Machine) : Machine :=
  let (changed, m2) := runApp_poll gpio m
  if m2.appState.appState = appStateEnum.INVALID_CREDENTIALS
      ∨ m2.appState.appState = appStateEnum.DRAWER_LOCKED then
    let (r, m3) := doAction '!' m2
    { m3 with appState := { m3.appState with redrawRequired := r } }
  else if changed = true then
    let (r, m3) := doAction '!' m2
    { m3 with appState := { m3.appState with redrawRequired := r } }
  else m2

/-- The key handling of `runApp`, for a successful `checkForKeyPress` that left `key` in the
local variable (`NUL` when no key is down). -/
def runApp_key (key : Char) (m : Machine) : Machine :=
  if key ≠ NUL ∧ m.appState.isKeyPressed = false then
    let m1 : Machine := { m with appState := { m.appState with isKeyPressed := true } }
    let (r, m2) := doAction key m1
    { m2 with appState := { m2.appState with redrawRequired := r } }
  else if key = NUL then
    { m with appState := { m.appState with isKeyPressed := false } }
  else m

/-- The last part of `runApp`, from the call of `stateChanged` on. -/
def runApp_manage (m : Machine) : Int × Machine :=
  let (isNewState, m1) := stateChanged m.appState.appState m
  if m1.appState.redrawRequired = true then
    if draw isNewState m1.appState < 0 then (-1, m1)
    else
      (0, manageState isNewState
        { m1 with appState := { m1.appState with redrawRequired := false } })
  else
    (0, manageState isNewState m1)

/-- `runApp()`, one tick. `gpio` is the result of the sensor read, `keyRead` the result of
`checkForKeyPress`: `none` when it returns a negative value, else the character it left in
`key`. -/
def runApp (gpio : Option GPIO_Value_Type) (keyRead : Option Char) (m : Machine) :
    Int × Machine :=
  let m3 := runApp_events gpio m
  match keyRead with
  | none => (-1, m3)
  | some key => runApp_manage (runApp_key key m3)

/-- The inputs of one tick. -/
abbrev TickInput := Option GPIO_Value_Type × Option Char

/-- The machine after a sequence of ticks. -/
def runTicks (inputs : List TickInput) (m : Machine) : Machine :=
  inputs.foldl (fun s i => (runApp i.1 i.2 s).2) m

/-! ## Scenarios -/

/-- The characters `keyToAction` maps to `ADD_TO_VALUE`. -/
def digits : List Char := ['1', '2', '3', '4', '5', '6', '7', '8', '9', '0']

/-- The 7-byte buffer that holds the string `s` and `NUL` in all bytes behind it. -/
def codeBuffer (s : List Char) : List Char := s ++ List.replicate (7 - s.length) NUL

/-- One tick with the sensor reading closed and `checkForKeyPress` reporting `key`. -/
def closedTick (key : Char) : TickInput := (some LOCK_CLOSED, some key)

/-- The keys `keys` as fresh presses: the sensor reads closed throughout and a tick without
a key separates two presses. -/
def pressKeys (keys : List Char) : List TickInput :=
  (keys.map closedTick).intersperse (closedTick NUL)

/-- The ticks that store under the code `c`: menu key, the characters of `c`, confirm key. -/
def storeTicks (c : List Char) : List TickInput :=
  pressKeys ('A' :: c ++ ['#'])

/-- A tick without a key followed by a tick with `key`, for each key: the fresh presses that
follow an earlier press. -/
def thenPress (keys : List Char) : List TickInput :=
  keys.flatMap (fun k => [closedTick NUL, closedTick k])

/-- Code entry at rest between two ticks: past the first tick, sensor last seen closed, the
state `CODE` already seen by `stateChanged`, nothing to redraw. -/
def CodeEntryReady (m : Machine) : Prop :=
  m.fstRun = false ∧ m.lockStateChanged_previousState = LOCK_CLOSED
    ∧ m.appState.appState = appStateEnum.CODE
    ∧ m.stateChanged_previousState = appStateEnum.CODE
    ∧ m.appState.redrawRequired = false

/-- One attempt with the code `c` in code entry: the characters of `c` and the confirm key as
fresh presses, then one tick without a key, in which the forced advance takes place. -/
def attemptTicks (c : List Char) : List TickInput :=
  thenPress (c ++ ['#']) ++ [closedTick NUL]

/-- A session in code entry holding the complete code `123456` over a stored `654321`. -/
def exampleCodeEntry : Machine :=
  { initial with
    secretCode := ['1', '2', '3', '4', '5', '6', NUL]
    savedCode := ['6', '5', '4', '3', '2', '1', NUL]
    fstRun := false
    appState := { appStateStructInit initial.appState with
      appState := appStateEnum.CODE
      isEmpty := false } }

/-- A session that has just entered `WAIT` to store `123456` in the empty compartment. -/
def exampleWaitStore : Machine :=
  { initial with
    secretCode := ['1', '2', '3', '4', '5', '6', NUL]
    fstRun := false
    appState := { appStateStructInit initial.appState with appState := appStateEnum.WAIT } }

/-- A session showing "Invalid code" after the third wrong attempt. -/
def exampleInvalid : Machine :=
  { initial with
    secretCode := ['1', '2', '3', '4', '5', '6', NUL]
    savedCode := ['6', '5', '4', '3', '2', '1', NUL]
    fstRun := false
    stateChanged_previousState := appStateEnum.INVALID_CREDENTIALS
    appState := { appStateStructInit initial.appState with
      appState := appStateEnum.INVALID_CREDENTIALS
      isKeyPressed := true
      redrawRequired := false
      isEmpty := false
      wrongAttempts := 3 } }

/-- A session at rest in code entry, nothing typed yet, over a stored `654321`. -/
def exampleReady : Machine :=
  { initial with
    savedCode := ['6', '5', '4', '3', '2', '1', NUL]
    fstRun := false
    stateChanged_previousState := appStateEnum.CODE
    appState := { appStateStructInit initial.appState with
      appState := appStateEnum.CODE
      redrawRequired := false
      isEmpty := false } }

/-- Store `123456`, see the compartment opened and closed, return to the menu and enter code
entry again: 20 ticks that end in `CODE` over an occupied compartment. -/
def storeAndReturn : List TickInput :=
  storeTicks ['1', '2', '3', '4', '5', '6']
    ++ [(some LOCK_OPEN, some NUL), (some LOCK_CLOSED, some NUL)]
    ++ pressKeys ['A', 'A']

/-- `storeAndReturn` followed by two failed attempts with `000000` and the third entry of
`000000` up to, and excluding, its confirm key. -/
def beforeThirdStrike : List TickInput :=
  storeAndReturn ++ attemptTicks ['0', '0', '0', '0', '0', '0']
    ++ attemptTicks ['0', '0', '0', '0', '0', '0']
    ++ thenPress ['0', '0', '0', '0', '0', '0'] ++ [closedTick NUL]

/-- The run `beforeThirdStrike` and the tick that handles the third wrong confirm. -/
def thirdStrike : List TickInput := beforeThirdStrike ++ [closedTick '#']

/-- `storeAndReturn` followed by the entry and confirmation of the stored code `123456`: the
item is retrieved. -/
def retrieveRun : List TickInput :=
  storeAndReturn ++ thenPress ['1', '2', '3', '4', '5', '6', '#']

/-- The run `thirdStrike` and one tick without a key: the forced advance to the lockout
screen, which then lasts for its 60 seconds. -/
def lockedOut : List TickInput := thirdStrike ++ [closedTick NUL]

/-- The run `thirdStrike` and one tick whose key read fails: `runApp` returns after the
forced advance to the lockout screen. -/
def lockedOutAborted : List TickInput := thirdStrike ++ [(some LOCK_CLOSED, none)]

/-- The ticks that type `123456` into the empty compartment's code entry, up to and
excluding the tick of the confirm key. -/
def beforeConfirm : List TickInput :=
  pressKeys ['A', '1', '2', '3', '4', '5', '6'] ++ [closedTick NUL]

/-! ## Invariants -/

/-- What holds of the machine between any two of its actions:
the bound on `wrongAttempts`, which is tighter outside the two lockout screens;
an empty pending code outside code entry, `WAIT` and the "Invalid code" screen;
a `WAIT` that `stateChanged` has not yet seen was entered by the reopen key or with a
complete pending code;
and, once the session record is initialised, a complete `savedCode` while the compartment is
occupied. -/
def ActionInv (m : Machine) : Prop :=
  m.appState.wrongAttempts ≤ 3
  ∧ (m.appState.appState ≠ appStateEnum.INVALID_CREDENTIALS →
      m.appState.appState ≠ appStateEnum.DRAWER_LOCKED → m.appState.wrongAttempts ≤ 2)
  ∧ (m.appState.appState ≠ appStateEnum.CODE → m.appState.appState ≠ appStateEnum.WAIT →
      m.appState.appState ≠ appStateEnum.INVALID_CREDENTIALS → strlen m.secretCode = 0)
  ∧ (m.appState.appState = appStateEnum.WAIT →
      m.stateChanged_previousState = appStateEnum.WAIT ∨ m.appState.isReopen = true
        ∨ strlen m.secretCode = 6)
  ∧ (m.fstRun = false → m.appState.isEmpty = false → strlen m.savedCode = 6)

/-- What holds in addition between two ticks: the "Invalid code" screen is only present
while the key that confirmed the wrong code has not yet been seen released, and before the
first tick the state is `NONE` and the pending code is empty. -/
def TickInv (m : Machine) : Prop :=
  ActionInv m
  ∧ (m.appState.appState = appStateEnum.INVALID_CREDENTIALS → m.appState.isKeyPressed = true)
  ∧ (m.fstRun = true → m.appState.appState = appStateEnum.NONE ∧ strlen m.secretCode = 0)

/-- The fields no action writes. -/
def SameFrame (m r : Machine) : Prop :=
  r.fstRun = m.fstRun ∧ r.savedCode = m.savedCode
  ∧ r.appState.isKeyPressed = m.appState.isKeyPressed
  ∧ r.appState.isEmpty = m.appState.isEmpty
  ∧ r.stateChanged_previousState = m.stateChanged_previousState
  ∧ r.lockStateChanged_previousState = m.lockStateChanged_previousState
  ∧ r.appState.lockState = m.appState.lockState


/-- The moves of the state machine: what one call of `doAction key` can make of a session
in state `s0` with attempt counter `w0`, reopen flag `ro0`, sensor position `lock`, occupancy
flag `empty`, pending code `code` and committed code `saved`. After the call the state is
`s`, the attempt counter `w`, the reopen flag `ro` and the pending code `code2`. -/
inductive Transition (key : Char) (s0 : appStateEnum) (w0 : Nat) (ro0 : Bool)
    (lock : lockStateEnum) (empty : Bool) (code saved : List Char)
    (s : appStateEnum) (w : Nat) (ro : Bool) (code2 : List Char) : Prop where
  /-- No change of state; the pending code can change in `CODE` only. An advance key does
  not leave the two lockout screens as they are. -/
  | stay (hn : keyToAction key = actionEnum.NEXT_SCREEN →
        s0 ≠ appStateEnum.INVALID_CREDENTIALS ∧ s0 ≠ appStateEnum.DRAWER_LOCKED)
      (h1 : s = s0)
      (hw : w = w0)
      (hr : ro = ro0)
      (hc : s0 ≠ appStateEnum.CODE → code2 = code)
  /-- `SELECT` to `CODE` by the menu key. -/
  | menu (h0 : s0 = appStateEnum.SELECT) (hk : key = 'A')
      (h1 : s = appStateEnum.CODE)
      (hw : w = w0)
      (hr : ro = ro0) (hc : code2 = code)
  /-- A complete code that does not open the occupied compartment. -/
  | reject (h0 : s0 = appStateEnum.SELECT ∨ s0 = appStateEnum.CODE)
      (hk : key = '#') (hlen : strlen code = 6)
      (h1 : s = appStateEnum.INVALID_CREDENTIALS)
      (hw : w = (w0 + 1) % 256)
      (hr : ro = ro0) (hc : code2 = code)
  /-- A complete code that is accepted. -/
  | accept (h0 : s0 = appStateEnum.SELECT ∨ s0 = appStateEnum.CODE)
      (hk : key = '#') (hlen : strlen code = 6)
      (hv : empty = true ∨ strcmp code saved = 0)
      (h1 : s = appStateEnum.WAIT)
      (hw : w = w0)
      (hr : ro = ro0) (hc : code2 = code)
  /-- `WAIT` to `OPEN` while the sensor is known open. -/
  | opened (h0 : s0 = appStateEnum.WAIT)
      (hk : keyToAction key = actionEnum.NEXT_SCREEN) (hl : lock = LOCK_OPEN)
      (h1 : s = appStateEnum.OPEN)
      (hw : w = w0)
      (hr : ro = ro0) (hc : strlen code2 = 0)
  /-- `OPEN` to `CLOSED` while the sensor is known closed. -/
  | closed (h0 : s0 = appStateEnum.OPEN)
      (hk : keyToAction key = actionEnum.NEXT_SCREEN) (hl : lock = LOCK_CLOSED)
      (h1 : s = appStateEnum.CLOSED)
      (hw : w = w0)
      (hr : ro = ro0) (hc : code2 = code)
  /-- `CLOSED` to `SELECT` by the menu key. -/
  | done (h0 : s0 = appStateEnum.CLOSED) (hk : key = 'A')
      (h1 : s = appStateEnum.SELECT)
      (hw : w = w0)
      (hr : ro = ro0) (hc : code2 = code)
  /-- `CLOSED` to `WAIT` by the reopen key. -/
  | reopen (h0 : s0 = appStateEnum.CLOSED) (hk : key = 'B')
      (h1 : s = appStateEnum.WAIT)
      (hw : w = w0)
      (hr : ro = true) (hc : code2 = code)
  /-- `INVALID_CREDENTIALS` back to `CODE`. -/
  | retry (h0 : s0 = appStateEnum.INVALID_CREDENTIALS)
      (hk : keyToAction key = actionEnum.NEXT_SCREEN) (hlt : w0 < 3)
      (h1 : s = appStateEnum.CODE)
      (hw : w = w0)
      (hr : ro = ro0) (hc : strlen code2 = 0)
  /-- `INVALID_CREDENTIALS` to `DRAWER_LOCKED`. -/
  | lockout (h0 : s0 = appStateEnum.INVALID_CREDENTIALS)
      (hk : keyToAction key = actionEnum.NEXT_SCREEN) (hge : w0 ≥ 3)
      (h1 : s = appStateEnum.DRAWER_LOCKED)
      (hw : w = w0)
      (hr : ro = ro0) (hc : strlen code2 = 0)
  /-- `DRAWER_LOCKED` to `SELECT`. -/
  | unlocked (h0 : s0 = appStateEnum.DRAWER_LOCKED)
      (hk : keyToAction key = actionEnum.NEXT_SCREEN)
      (h1 : s = appStateEnum.SELECT)
      (hw : w = 0)
      (hr : ro = ro0) (hc : code2 = code)
  /-- `CODE` to `SELECT` by the back key. -/
  | back (h0 : s0 = appStateEnum.CODE) (hk : key = '*')
      (h1 : s = appStateEnum.SELECT)
      (hw : w = w0)
      (hr : ro = ro0) (hc : strlen code2 = 0)

/-- The machine `r` comes from the machine `m` by one of the moves. -/
def Moves (key : Char) (m r : Machine) : Prop :=
  Transition key m.appState.appState m.appState.wrongAttempts m.appState.isReopen
    m.appState.lockState m.appState.isEmpty m.secretCode m.savedCode
    r.appState.appState r.appState.wrongAttempts r.appState.isReopen r.secretCode

/-! ## Editing the pending code -/

/-- A 7-byte buffer that holds a string of at most 6 characters and `NUL` in every byte
behind it. -/
def WellFormedCode (b : List Char) : Prop :=
  b.length = 7 ∧ strlen b ≤ 6 ∧ ∀ c ∈ b.drop (strlen b), c = NUL

/-- The two edits of the pending code. -/
inductive CodeEdit where
  /-- A call `updateCodeValue(c)`. -/
  | append (c : Char)
  /-- A call `removeDigitFromCodeValue()`. -/
  | delete
  deriving DecidableEq, Repr

/-- The machine after one edit. -/
def applyEdit (e : CodeEdit) (m : Machine) : Machine :=
  match e with
  | CodeEdit.append c => (updateCodeValue c m).2
  | CodeEdit.delete => (removeDigitFromCodeValue m).2

/-- The machine after a sequence of edits. -/
def applyEdits (es : List CodeEdit) (m : Machine) : Machine :=
  es.foldl (fun s e => applyEdit e s) m

/-- The edits of `es` append digit characters only. -/
def DigitEdits (es : List CodeEdit) : Prop :=
  ∀ c, CodeEdit.append c ∈ es → c ∈ digits

/-! ## Runs with failing reads -/

/-- Store `123456`, see the compartment opened and closed, then press the reopen key in a
tick in which the sensor reads open again: the run ends in `WAIT` with the sensor known
open. -/
def reopenWhileOpen : List TickInput :=
  storeTicks ['1', '2', '3', '4', '5', '6']
    ++ [(some LOCK_OPEN, some NUL), (some LOCK_CLOSED, some NUL), (some LOCK_OPEN, some 'B')]

/-- Store `123456`, release the confirm key, then see the sensor open in a tick whose key
read fails: the run ends in `OPEN`, and `stateChanged` has not been called since `WAIT`. -/
def openedInAbortedTick : List TickInput :=
  storeTicks ['1', '2', '3', '4', '5', '6']
    ++ [closedTick NUL, (some LOCK_OPEN, none)]

/-- The run `openedInAbortedTick` and a tick in which the sensor reads closed and the reopen
key is pressed: `OPEN` to `CLOSED` by the forced advance, `CLOSED` to `WAIT` by the key. -/
def missedEntry : List TickInput :=
  openedInAbortedTick ++ [(some LOCK_CLOSED, some 'B')]

/-- How often `unlock()` has been called so far. -/
def unlockCount (m : Machine) : Nat := m.trace.count Event.unlock

/-- The session record and the static of `lockStateChanged` agree on the sensor position,
and the first tick is over. -/
def InSync (m : Machine) : Prop :=
  m.fstRun = false ∧ m.appState.lockState = m.lockStateChanged_previousState

/-- Ticks in all of which the sensor reads open, with the key reads `keys`. -/
def openTicks (keys : List (Option Char)) : List TickInput :=
  keys.map (fun k => (some LOCK_OPEN, k))

/-! The theorems. -/

set_option maxRecDepth 100000

/-! ## The keys the keypad can report -/

/-- A successful key scan leaves `NUL` or one of the sixteen characters of `matrix`. -/
theorem checkForKeyPress_mem (rowValue : Nat → Nat → GPIO_Value_Type) :
    checkForKeyPress rowValue = NUL ∨ checkForKeyPress rowValue ∈ matrix.flatten := by
  unfold checkForKeyPress
  dsimp only
  split
  · next p hp =>
    have hmem := List.mem_of_find?_eq_some hp
    simp only [List.mem_flatMap, List.mem_map, List.mem_range] at hmem
    obtain ⟨i, hi, j, hj, rfl⟩ := hmem
    right
    interval_cases i <;> interval_cases j <;> decide
  · exact Or.inl rfl

/-! ## Facts about the string functions -/

theorem strlen_eq_length_cstr (b : List Char) : strlen b = (cstr b).length := by
  induction b with
  | nil => rfl
  | cons c cs ih =>
    by_cases h : c = NUL <;> simp [strlen, cstr, h, ih]

theorem strcmp_eq_zero_iff (a b : List Char) : strcmp a b = 0 ↔ cstr a = cstr b := by
  induction a generalizing b with
  | nil =>
    cases b with
    | nil => simp [strcmp, cstr]
    | cons y ys =>
      by_cases hy : y = NUL <;> simp [strcmp, cstr, hy]
  | cons x xs ih =>
    cases b with
    | nil =>
      by_cases hx : x = NUL <;> simp [strcmp, cstr, hx]
    | cons y ys =>
      by_cases hxy : x = y
      · subst hxy
        by_cases hx : x = NUL
        · simp [strcmp, cstr, hx]
        · simp [strcmp, cstr, hx, ih]
      · have h1 : strcmp (x :: xs) (y :: ys) ≠ 0 := by
          simp only [strcmp, hxy, if_false]
          split <;> simp
        have h2 : cstr (x :: xs) ≠ cstr (y :: ys) := by
          by_cases hx : x = NUL
          · have hy : ¬ y = NUL := fun hy => hxy (hx.trans hy.symm)
            simp [cstr, hx, hy]
          · by_cases hy : y = NUL
            · simp [cstr, hx, hy]
            · simp [cstr, hx, hy, hxy]
        exact ⟨fun h => absurd h h1, fun h => absurd h h2⟩

theorem cstr_strcpy (dst src : List Char) : cstr (strcpy dst src) = cstr src := by
  induction src generalizing dst with
  | nil => simp [strcpy, cstr]
  | cons c cs ih =>
    by_cases h : c = NUL <;> simp [strcpy, cstr, h, ih]

theorem strlen_strcpy (dst src : List Char) : strlen (strcpy dst src) = strlen src := by
  rw [strlen_eq_length_cstr, strlen_eq_length_cstr, cstr_strcpy]

/-- The loop of `clearSecretCode`, on the buffer alone. -/
theorem clear_foldl_eq (buf : List Char) :
    (List.range 6).foldl (fun b i => b.set i NUL) buf
      = (((((buf.set 0 NUL).set 1 NUL).set 2 NUL).set 3 NUL).set 4 NUL).set 5 NUL := by
  simp [List.range, List.range.loop]

theorem strlen_clear (buf : List Char) :
    strlen ((List.range 6).foldl (fun b i => b.set i NUL) buf) = 0 := by
  rw [clear_foldl_eq]
  cases buf with
  | nil => simp [strlen]
  | cons c cs =>
    simp only [List.set_cons_zero]
    cases cs <;> simp [strlen, List.set]

theorem strlen_clearSecretCode (m : Machine) : strlen (clearSecretCode m).secretCode = 0 :=
  strlen_clear m.secretCode

/-! ## The confirm key in code entry -/

/-- C1: in `CODE`, the confirm key `'#'` is dispatched to `nextScreen` and
(1) with a complete 6-character pending code, an occupied compartment and a pending code that
differs from `savedCode`, moves to `INVALID_CREDENTIALS` and adds exactly one to
`wrongAttempts` (below 255), touching nothing else;
(2) with a complete pending code and an empty compartment or a pending code equal to
`savedCode`, moves to `WAIT` and touches nothing else;
(3) with fewer than 6 characters changes nothing and returns `false`. -/
theorem C1_confirm_in_CODE (m : Machine) (h : m.appState.appState = appStateEnum.CODE) :
    doAction '#' m = nextScreen '#' m
    ∧ (strlen m.secretCode = 6 → m.appState.isEmpty = false
        → cstr m.secretCode ≠ cstr m.savedCode → m.appState.wrongAttempts < 255
        → doAction '#' m = (true, { m with appState := { m.appState with
            appState := appStateEnum.INVALID_CREDENTIALS
            wrongAttempts := m.appState.wrongAttempts + 1 } }))
    ∧ (strlen m.secretCode = 6
        → (m.appState.isEmpty = true ∨ cstr m.secretCode = cstr m.savedCode)
        → doAction '#' m = (true, { m with appState := { m.appState with
            appState := appStateEnum.WAIT } }))
    ∧ (strlen m.secretCode < 6 → doAction '#' m = (false, m)) := by
  have hd : doAction '#' m = nextScreen_CODE '#' m := by
    simp [doAction, doAction_alert, keyToAction, nextScreen, h]
  have hn : nextScreen '#' m = nextScreen_CODE '#' m := by
    simp [nextScreen, h]
  refine ⟨hd.trans hn.symm, ?_, ?_, ?_⟩
  · intro hlen hocc hne hw
    have hv : ¬ strcmp m.secretCode m.savedCode = 0 := by
      rw [strcmp_eq_zero_iff]; exact hne
    have hmod : (m.appState.wrongAttempts + 1) % 256 = m.appState.wrongAttempts + 1 :=
      Nat.mod_eq_of_lt (by omega)
    simp [hd, nextScreen_CODE, isValidCodeValue, isValidCode, hlen, hocc, hv, hmod]
  · intro hlen hor
    rcases hor with he | he
    · simp [hd, nextScreen_CODE, isValidCodeValue, isValidCode, hlen, he]
    · have hv : strcmp m.secretCode m.savedCode = 0 := (strcmp_eq_zero_iff _ _).2 he
      simp [hd, nextScreen_CODE, isValidCodeValue, isValidCode, hlen, hv]
  · intro hlen
    have : ¬ strlen m.secretCode = 6 := by omega
    simp [hd, nextScreen_CODE, isValidCodeValue, this]

/-- C1 at `exampleCodeEntry`: the mismatching complete code leads to `INVALID_CREDENTIALS`
with one wrong attempt counted. -/
theorem C1_confirm_in_CODE_witness :
    doAction '#' exampleCodeEntry = (true, { exampleCodeEntry with
      appState := { exampleCodeEntry.appState with
        appState := appStateEnum.INVALID_CREDENTIALS
        wrongAttempts := exampleCodeEntry.appState.wrongAttempts + 1 } }) :=
  (C1_confirm_in_CODE exampleCodeEntry rfl).2.1
    (by decide) (by decide) (by decide) (by decide)

/-! ## The entry effect of `WAIT` -/

theorem manageState_appState (b : Bool) (m : Machine) :
    (manageState b m).appState.appState = m.appState.appState := by
  unfold manageState
  split <;> (try rfl)
  split_ifs <;> simp [saveSecretCode, *]


/-- C2: for a session in `WAIT`, `manageState` with `isNewState = true` does exactly this:
(a) with `isReopen` set: `unlock` runs, `isReopen` is cleared, nothing else changes
(so `isEmpty`, `savedCode` and `wrongAttempts` stay);
(b) with `isReopen` clear and an empty compartment: `isEmpty` becomes `false`, `savedCode`
receives `strcpy(savedCode, secretCode)` and then holds the string of `secretCode`, and
`unlock` runs;
(c) with `isReopen` clear, an occupied compartment and a complete pending code equal to
`savedCode`: `isEmpty` becomes `true`, `wrongAttempts` becomes `0`, `unlock` runs and
`savedCode` stays;
(d) with `isReopen` clear, an occupied compartment and a pending code that is incomplete or
differs from `savedCode`: nothing at all changes, and `unlock` does not run.
The four cases cover every session in `WAIT`. In each of them `appState` is still `WAIT`,
and without `isNewState` nothing changes. -/
theorem C2_WAIT_entry (m : Machine) (h : m.appState.appState = appStateEnum.WAIT) :
    (m.appState.isReopen = true →
      manageState true m = { m with
        trace := m.trace ++ [Event.unlock, Event.SendTelemetry "LockOpened" "Lock reopened."]
        appState := { m.appState with isReopen := false } }
      ∧ (manageState true m).appState.isEmpty = m.appState.isEmpty
      ∧ (manageState true m).savedCode = m.savedCode
      ∧ (manageState true m).appState.wrongAttempts = m.appState.wrongAttempts)
    ∧ (m.appState.isReopen = false → m.appState.isEmpty = true →
      manageState true m = { m with
        appState := { m.appState with isEmpty := false }
        savedCode := strcpy m.savedCode m.secretCode
        trace := m.trace ++
          [Event.unlock, Event.SendTelemetry "LockOpened" "Lock opened to store item."] }
      ∧ cstr (manageState true m).savedCode = cstr m.secretCode)
    ∧ (m.appState.isReopen = false → m.appState.isEmpty = false →
      strlen m.secretCode = 6 → cstr m.secretCode = cstr m.savedCode →
      manageState true m = { m with
        appState := { m.appState with isEmpty := true, wrongAttempts := 0 }
        trace := m.trace ++
          [Event.unlock, Event.SendTelemetry "LockOpened" "Lock reopened to pick up item"] }
      ∧ (manageState true m).savedCode = m.savedCode)
    ∧ (m.appState.isReopen = false → m.appState.isEmpty = false →
      (strlen m.secretCode ≠ 6 ∨ cstr m.secretCode ≠ cstr m.savedCode) →
      manageState true m = m)
    ∧ (manageState true m).appState.appState = appStateEnum.WAIT
    ∧ manageState false m = m := by
  refine ⟨?_, ?_, ?_, ?_, ?_, ?_⟩
  · intro hr
    simp [manageState, h, hr]
  · intro hr he
    simp [manageState, h, hr, he, saveSecretCode, cstr_strcpy]
  · intro hr he hlen heq
    have hv : strcmp m.secretCode m.savedCode = 0 := (strcmp_eq_zero_iff _ _).2 heq
    simp [manageState, h, hr, he, isValidCodeValue, isValidCode, hlen, hv]
  · intro hr he hbad
    rcases hbad with hlen | hne
    · simp [manageState, h, hr, he, isValidCodeValue, hlen]
    · have hv : strcmp m.secretCode m.savedCode ≠ 0 :=
        fun h0 => hne ((strcmp_eq_zero_iff _ _).1 h0)
      simp [manageState, h, hr, he, isValidCode, hv]
  · rw [manageState_appState, h]
  · simp [manageState, h]

/-- C2 at `exampleWaitStore`: the store branch commits `123456` and marks the compartment
occupied; and at `exampleCodeEntry` moved to `WAIT`, where `123456` is pending over a stored
`654321`: nothing changes. -/
theorem C2_WAIT_entry_witness :
    (manageState true exampleWaitStore).savedCode = ['1', '2', '3', '4', '5', '6', NUL]
    ∧ (manageState true exampleWaitStore).appState.isEmpty = false
    ∧ (manageState true exampleWaitStore).appState.appState = appStateEnum.WAIT
    ∧ manageState true { exampleCodeEntry with
          appState := { exampleCodeEntry.appState with appState := appStateEnum.WAIT } }
        = { exampleCodeEntry with
          appState := { exampleCodeEntry.appState with appState := appStateEnum.WAIT } } := by
  have hb := ((C2_WAIT_entry exampleWaitStore rfl).2.1 rfl rfl).1
  refine ⟨?_, ?_, (C2_WAIT_entry exampleWaitStore rfl).2.2.2.2.1, ?_⟩
  · rw [hb]; decide
  · rw [hb]
  · exact (C2_WAIT_entry { exampleCodeEntry with
      appState := { exampleCodeEntry.appState with appState := appStateEnum.WAIT } }
      rfl).2.2.2.1 rfl rfl (Or.inr (by decide))

/-! ## Buffers that hold a given string -/

theorem strlen_append_NUL (s r : List Char) (hs : NUL ∉ s) :
    strlen (s ++ NUL :: r) = s.length := by
  induction s with
  | nil => simp [strlen]
  | cons c cs ih =>
    have hc : c ≠ NUL := fun h => hs (by simp [h])
    have hcs : NUL ∉ cs := fun h => hs (by simp [h])
    simp [strlen, hc, ih hcs]

theorem cstr_append_NUL (s r : List Char) (hs : NUL ∉ s) : cstr (s ++ NUL :: r) = s := by
  induction s with
  | nil => simp [cstr]
  | cons c cs ih =>
    have hc : c ≠ NUL := fun h => hs (by simp [h])
    have hcs : NUL ∉ cs := fun h => hs (by simp [h])
    simp [cstr, hc, ih hcs]

theorem strcpy_append_NUL (dst s r : List Char) (hs : NUL ∉ s) :
    strcpy dst (s ++ NUL :: r) = s ++ NUL :: dst.drop (s.length + 1) := by
  induction s generalizing dst with
  | nil => cases dst <;> simp [strcpy]
  | cons c cs ih =>
    have hc : c ≠ NUL := fun h => hs (by simp [h])
    have hcs : NUL ∉ cs := fun h => hs (by simp [h])
    cases dst <;> simp [strcpy, hc, ih _ hcs]

theorem codeBuffer_eq (s : List Char) (h : s.length ≤ 6) :
    codeBuffer s = s ++ NUL :: List.replicate (6 - s.length) NUL := by
  have : 7 - s.length = (6 - s.length) + 1 := by omega
  simp [codeBuffer, this, List.replicate_succ]

theorem length_codeBuffer (s : List Char) (h : s.length ≤ 6) : (codeBuffer s).length = 7 := by
  simp [codeBuffer]; omega

theorem strlen_codeBuffer (s : List Char) (h : s.length ≤ 6) (hs : NUL ∉ s) :
    strlen (codeBuffer s) = s.length := by
  rw [codeBuffer_eq s h, strlen_append_NUL _ _ hs]

theorem cstr_codeBuffer (s : List Char) (h : s.length ≤ 6) (hs : NUL ∉ s) :
    cstr (codeBuffer s) = s := by
  rw [codeBuffer_eq s h, cstr_append_NUL _ _ hs]

theorem set_codeBuffer (s : List Char) (d : Char) (h : s.length < 6) :
    (codeBuffer s).set s.length d = codeBuffer (s ++ [d]) := by
  rw [codeBuffer_eq s (by omega), codeBuffer_eq (s ++ [d]) (by simp; omega)]
  have : 6 - s.length = (6 - (s ++ [d]).length) + 1 := by simp; omega
  rw [this, List.replicate_succ]
  simp [List.set_append]

theorem strcpy_codeBuffer (dst s : List Char) (hd : dst.length = 7) (h : s.length = 6)
    (hs : NUL ∉ s) : strcpy dst (codeBuffer s) = codeBuffer s := by
  rw [codeBuffer_eq s (by omega), strcpy_append_NUL _ _ _ hs]
  simp [h, hd]

theorem clear_codeBuffer (s : List Char) (h : s.length ≤ 6) :
    (List.range 6).foldl (fun b i => b.set i NUL) (codeBuffer s) = codeBuffer [] := by
  rw [clear_foldl_eq]
  rcases s with _ | ⟨a, _ | ⟨b, _ | ⟨c, _ | ⟨d, _ | ⟨e, _ | ⟨f, _ | ⟨g, t⟩⟩⟩⟩⟩⟩⟩
  all_goals first
    | (exfalso; simp at h; done)
    | simp [codeBuffer, List.replicate]

/-! ## Digits -/

theorem keyToAction_of_mem_digits {d : Char} (h : d ∈ digits) :
    keyToAction d = actionEnum.ADD_TO_VALUE := by
  simp only [digits, List.mem_cons, List.mem_singleton, List.not_mem_nil, or_false] at h
  rcases h with h | h | h | h | h | h | h | h | h | h <;> subst h <;> decide

theorem ne_NUL_of_mem_digits {d : Char} (h : d ∈ digits) : d ≠ NUL := by
  simp only [digits, List.mem_cons, List.mem_singleton, List.not_mem_nil, or_false] at h
  rcases h with h | h | h | h | h | h | h | h | h | h <;> subst h <;> decide

theorem ne_bang_of_mem_digits {d : Char} (h : d ∈ digits) : d ≠ '!' := by
  simp only [digits, List.mem_cons, List.mem_singleton, List.not_mem_nil, or_false] at h
  rcases h with h | h | h | h | h | h | h | h | h | h <;> subst h <;> decide

theorem NUL_not_mem_of_digits {c : List Char} (h : ∀ d ∈ c, d ∈ digits) : NUL ∉ c :=
  fun hc => ne_NUL_of_mem_digits (h _ hc) rfl

theorem doAction_digit {d : Char} (h : d ∈ digits) (m : Machine) :
    doAction d m
      = if m.appState.appState = appStateEnum.CODE then updateCodeValue d m else (false, m) := by
  simp [doAction, doAction_alert, keyToAction_of_mem_digits h, ne_bang_of_mem_digits h]

/-! ## Ticks of code entry -/

theorem runTicks_nil (m : Machine) : runTicks [] m = m := rfl

theorem runTicks_cons (i : TickInput) (is : List TickInput) (m : Machine) :
    runTicks (i :: is) m = runTicks is (runApp i.1 i.2 m).2 := rfl

theorem runTicks_append (a b : List TickInput) (m : Machine) :
    runTicks (a ++ b) m = runTicks b (runTicks a m) := by
  simp [runTicks, List.foldl_append]

theorem pressKeys_cons (k : Char) (ks : List Char) :
    pressKeys (k :: ks) = closedTick k :: thenPress ks := by
  induction ks generalizing k with
  | nil => simp [pressKeys, thenPress]
  | cons k2 ks ih =>
    have := ih k2
    simp only [pressKeys, List.map_cons] at this ⊢
    rw [List.intersperse_cons₂, this]
    simp [thenPress]

theorem thenPress_append (a b : List Char) : thenPress (a ++ b) = thenPress a ++ thenPress b := by
  simp [thenPress]

theorem tick_noKey (m : Machine) (h : CodeEntryReady m) :
    runApp (some LOCK_CLOSED) (some NUL) m
      = (0, { m with appState := { m.appState with isKeyPressed := false } }) := by
  obtain ⟨h1, h2, h3, h4, h5⟩ := h
  simp [runApp, runApp_events, runApp_poll, runApp_key, runApp_manage, lockStateChanged, stateChanged,
    manageState, h1, h2, h3, h4, h5]

theorem tick_digit (m : Machine) (h : CodeEntryReady m) (d : Char) (hd : d ∈ digits)
    (hk : m.appState.isKeyPressed = false) (hlen : strlen m.secretCode ≠ 6) :
    runApp (some LOCK_CLOSED) (some d) m
      = (0, { m with
          secretCode := m.secretCode.set (strlen m.secretCode) d
          appState := { m.appState with isKeyPressed := true } }) := by
  obtain ⟨h1, h2, h3, h4, h5⟩ := h
  simp [runApp, runApp_events, runApp_poll, runApp_key, runApp_manage, lockStateChanged, stateChanged,
    manageState, draw, doAction_digit hd, updateCodeValue, ne_NUL_of_mem_digits hd,
    h1, h2, h3, h4, h5, hk, hlen]

/-- Typing further digits into a buffer that holds `s`. -/
theorem thenPress_digits (ds : List Char) (hds : ∀ d ∈ ds, d ∈ digits) :
    ∀ (m : Machine) (s : List Char), CodeEntryReady m → m.secretCode = codeBuffer s →
      NUL ∉ s → s.length + ds.length ≤ 6 →
      ∃ kp, runTicks (thenPress ds) m = { m with
        secretCode := codeBuffer (s ++ ds)
        appState := { m.appState with isKeyPressed := kp } } := by
  induction ds with
  | nil =>
    intro m s _ hs _ _
    exact ⟨m.appState.isKeyPressed, by simp [thenPress, runTicks_nil, ← hs]⟩
  | cons d ds ih =>
    intro m s hm hs hnul hlen
    have hd : d ∈ digits := hds d (by simp)
    simp only [List.length_cons] at hlen
    let m1 : Machine := { m with appState := { m.appState with isKeyPressed := false } }
    have hm1 : CodeEntryReady m1 := hm
    let m2 : Machine := { m with
      secretCode := codeBuffer (s ++ [d])
      appState := { m.appState with isKeyPressed := true } }
    have hm2 : CodeEntryReady m2 := hm
    have hstep : runTicks [closedTick NUL, closedTick d] m = m2 := by
      have hl : strlen m1.secretCode = s.length := by
        show strlen m.secretCode = s.length
        rw [hs, strlen_codeBuffer s (by omega) hnul]
      simp only [runTicks_cons, runTicks_nil, closedTick, tick_noKey m hm]
      rw [tick_digit m1 hm1 d hd rfl (by rw [hl]; omega), hl]
      show ({ m with secretCode := m.secretCode.set s.length d,
                     appState := { m.appState with isKeyPressed := true } } : Machine) = m2
      rw [hs, set_codeBuffer s d (by omega)]
    have hnul2 : NUL ∉ s ++ [d] := by
      simp only [List.mem_append, List.mem_singleton, not_or]
      exact ⟨hnul, fun h => ne_NUL_of_mem_digits hd h.symm⟩
    obtain ⟨kp, hkp⟩ := ih (fun x hx => hds x (by simp [hx])) m2 (s ++ [d]) hm2 rfl hnul2
      (by simp; omega)
    refine ⟨kp, ?_⟩
    have : thenPress (d :: ds) = [closedTick NUL, closedTick d] ++ thenPress ds := by
      simp [thenPress]
    rw [this, runTicks_append, hstep, hkp]
    simp [m2]

theorem tick_confirm_store (m : Machine) (h : CodeEntryReady m)
    (hk : m.appState.isKeyPressed = false) (hlen : strlen m.secretCode = 6)
    (he : m.appState.isEmpty = true) (hr : m.appState.isReopen = false) :
    runApp (some LOCK_CLOSED) (some '#') m
      = (0, { m with
          savedCode := strcpy m.savedCode m.secretCode
          stateChanged_previousState := appStateEnum.WAIT
          appState := { m.appState with
            appState := appStateEnum.WAIT
            isKeyPressed := true
            isEmpty := false }
          trace := m.trace ++
            [Event.unlock, Event.SendTelemetry "LockOpened" "Lock opened to store item."] }) := by
  obtain ⟨h1, h2, h3, h4, h5⟩ := h
  have hne : ('#' : Char) ≠ NUL := by decide
  simp [runApp, runApp_events, runApp_poll, runApp_key, runApp_manage, lockStateChanged, stateChanged,
    manageState, draw, doAction, doAction_alert, keyToAction, nextScreen, nextScreen_CODE, isValidCodeValue,
    saveSecretCode, hne, h1, h2, h3, h4, h5, hk, hlen, he, hr]

/-- The machine after the first tick, in which the menu key was handled. -/
theorem first_tick_menu :
    (runApp (some LOCK_CLOSED) (some 'A') initial).2
      = { initial with
          fstRun := false
          stateChanged_previousState := appStateEnum.CODE
          appState := { appStateStructInit initial.appState with
            appState := appStateEnum.CODE
            isKeyPressed := true
            redrawRequired := false } } := by
  decide

/-- The machine after `storeTicks c`, for a 6-digit code `c`. -/
theorem runTicks_storeTicks (c : List Char) (hlen : c.length = 6)
    (hc : ∀ d ∈ c, d ∈ digits) :
    runTicks (storeTicks c) initial
      = { initial with
          fstRun := false
          secretCode := codeBuffer c
          savedCode := codeBuffer c
          stateChanged_previousState := appStateEnum.WAIT
          appState := { appStateStructInit initial.appState with
            appState := appStateEnum.WAIT
            isKeyPressed := true
            redrawRequired := false
            isEmpty := false }
          trace := [Event.unlock, Event.SendTelemetry "LockOpened" "Lock opened to store item."] } := by
  have hnul : NUL ∉ c := NUL_not_mem_of_digits hc
  have hsplit : storeTicks c
      = [closedTick 'A'] ++ thenPress c ++ [closedTick NUL, closedTick '#'] := by
    simp [storeTicks, pressKeys_cons, thenPress_append, thenPress]
  rw [hsplit, runTicks_append, runTicks_append]
  let m1 : Machine := { initial with
    fstRun := false
    stateChanged_previousState := appStateEnum.CODE
    appState := { appStateStructInit initial.appState with
      appState := appStateEnum.CODE
      isKeyPressed := true
      redrawRequired := false } }
  have h1 : runTicks [closedTick 'A'] initial = m1 := first_tick_menu
  have hm1 : CodeEntryReady m1 := ⟨rfl, rfl, rfl, rfl, rfl⟩
  obtain ⟨kp, hkp⟩ := thenPress_digits c hc m1 [] hm1 rfl (by simp) (by simp [hlen])
  rw [h1, hkp]
  simp only [List.nil_append, runTicks_cons, runTicks_nil, closedTick]
  let m2 : Machine := { m1 with
    secretCode := codeBuffer c
    appState := { m1.appState with isKeyPressed := kp } }
  have hm2 : CodeEntryReady m2 := ⟨rfl, rfl, rfl, rfl, rfl⟩
  let m3 : Machine := { m2 with appState := { m2.appState with isKeyPressed := false } }
  have hm3 : CodeEntryReady m3 := ⟨rfl, rfl, rfl, rfl, rfl⟩
  have hl3 : strlen m3.secretCode = 6 := by
    show strlen (codeBuffer c) = 6
    rw [strlen_codeBuffer c (by omega) hnul, hlen]
  have e2 : runApp (some LOCK_CLOSED) (some NUL) m2 = (0, m3) := tick_noKey m2 hm2
  have e3 := tick_confirm_store m3 hm3 rfl hl3 rfl rfl
  show (runApp (some LOCK_CLOSED) (some '#') (runApp (some LOCK_CLOSED) (some NUL) m2).2).2 = _
  rw [e2, e3]
  show ({ initial with
          fstRun := false
          secretCode := codeBuffer c
          savedCode := strcpy initial.savedCode (codeBuffer c)
          stateChanged_previousState := appStateEnum.WAIT
          appState := { appStateStructInit initial.appState with
            appState := appStateEnum.WAIT
            isKeyPressed := true
            redrawRequired := false
            isEmpty := false }
          trace := [Event.unlock, Event.SendTelemetry "LockOpened" "Lock opened to store item."] }
            : Machine) = _
  rw [strcpy_codeBuffer _ c (by decide) hlen hnul]

/-- A tick in `WAIT`, the key of the confirm not yet released, in which the sensor is first
seen open. -/
theorem tick_sensor_opens (m : Machine) (keyRead : Option Char) (hf : m.fstRun = false)
    (hl : m.lockStateChanged_previousState = LOCK_CLOSED)
    (hst : m.appState.appState = appStateEnum.WAIT)
    (hk : m.appState.isKeyPressed = true) :
    (runApp (some LOCK_OPEN) keyRead m).2.appState.appState = appStateEnum.OPEN
    ∧ (runApp (some LOCK_OPEN) keyRead m).2.appState.isEmpty = m.appState.isEmpty
    ∧ (runApp (some LOCK_OPEN) keyRead m).2.savedCode = m.savedCode := by
  rcases keyRead with _ | key
  · simp [runApp, runApp_events, runApp_poll, lockStateChanged, doAction, doAction_alert, keyToAction,
      nextScreen, clearSecretCode, hf, hl, hst]
  · by_cases hkey : key = NUL <;>
      simp [runApp, runApp_events, runApp_poll, runApp_key, runApp_manage, lockStateChanged,
        doAction, doAction_alert, keyToAction, nextScreen, clearSecretCode, stateChanged, manageState, draw,
        hf, hl, hst, hk, hkey]
    all_goals split <;> simp [manageState]

/-- C3: for every 6-digit code `c`, the ticks `storeTicks c` from the initial state (first
tick included, compartment empty, sensor closed, every key a fresh press) end in `WAIT` with
the compartment occupied and `savedCode` holding `c`; one more tick in which the sensor reads
open ends in `OPEN` with the compartment still occupied and `savedCode` still holding `c`,
whatever the key read of that tick delivers. -/
theorem C3_store_scenario (c : List Char) (hlen : c.length = 6)
    (hc : ∀ d ∈ c, d ∈ digits) :
    (runTicks (storeTicks c) initial).appState.appState = appStateEnum.WAIT
    ∧ (runTicks (storeTicks c) initial).appState.isEmpty = false
    ∧ (runTicks (storeTicks c) initial).savedCode = c ++ [NUL]
    ∧ cstr (runTicks (storeTicks c) initial).savedCode = c
    ∧ ∀ keyRead : Option Char,
        (runTicks (storeTicks c ++ [(some LOCK_OPEN, keyRead)]) initial).appState.appState
            = appStateEnum.OPEN
        ∧ (runTicks (storeTicks c ++ [(some LOCK_OPEN, keyRead)]) initial).appState.isEmpty
            = false
        ∧ (runTicks (storeTicks c ++ [(some LOCK_OPEN, keyRead)]) initial).savedCode
            = c ++ [NUL]
        ∧ cstr (runTicks (storeTicks c ++ [(some LOCK_OPEN, keyRead)]) initial).savedCode
            = c := by
  have hnul : NUL ∉ c := NUL_not_mem_of_digits hc
  have hbuf : codeBuffer c = c ++ [NUL] := by
    rw [codeBuffer_eq c (by omega)]; simp [hlen]
  have hcs : cstr (c ++ [NUL]) = c := cstr_append_NUL c [] hnul
  refine ⟨?_, ?_, ?_, ?_, ?_⟩
  · rw [runTicks_storeTicks c hlen hc]
  · rw [runTicks_storeTicks c hlen hc]
  · rw [runTicks_storeTicks c hlen hc]; exact hbuf
  · rw [runTicks_storeTicks c hlen hc]; show cstr (codeBuffer c) = c; rw [hbuf, hcs]
  · intro keyRead
    have hW := runTicks_storeTicks c hlen hc
    obtain ⟨h1, h2, h3⟩ := tick_sensor_opens (runTicks (storeTicks c) initial) keyRead
      (by rw [hW]) (by rw [hW]; rfl) (by rw [hW]) (by rw [hW])
    rw [runTicks_append, runTicks_cons, runTicks_nil]
    refine ⟨h1, h2.trans (by rw [hW]), h3.trans (by rw [hW]; exact hbuf), ?_⟩
    rw [h3, hW]; show cstr (codeBuffer c) = c; rw [hbuf, hcs]

/-- The code `123456` consists of six digits: C3 for it. -/
theorem C3_store_scenario_witness :
    (runTicks (storeTicks ['1', '2', '3', '4', '5', '6']) initial).appState.appState
        = appStateEnum.WAIT
    ∧ (runTicks (storeTicks ['1', '2', '3', '4', '5', '6']) initial).savedCode
        = ['1', '2', '3', '4', '5', '6', NUL] :=
  have h := C3_store_scenario ['1', '2', '3', '4', '5', '6'] rfl (by decide)
  ⟨h.1, h.2.2.1⟩

/-! ## Failed attempts -/

theorem tick_confirm_mismatch (m : Machine) (h : CodeEntryReady m)
    (hk : m.appState.isKeyPressed = false) (hlen : strlen m.secretCode = 6)
    (he : m.appState.isEmpty = false) (hne : cstr m.secretCode ≠ cstr m.savedCode)
    (hw : m.appState.wrongAttempts < 255) :
    runApp (some LOCK_CLOSED) (some '#') m
      = (0, { m with
          stateChanged_previousState := appStateEnum.INVALID_CREDENTIALS
          appState := { m.appState with
            appState := appStateEnum.INVALID_CREDENTIALS
            isKeyPressed := true
            wrongAttempts := m.appState.wrongAttempts + 1 }
          trace := m.trace ++ [Event.nanosleep 3] }) := by
  obtain ⟨h1, h2, h3, h4, h5⟩ := h
  have hkey : ('#' : Char) ≠ NUL := by decide
  have hv : ¬ strcmp m.secretCode m.savedCode = 0 := by
    rw [strcmp_eq_zero_iff]; exact hne
  have hmod : (m.appState.wrongAttempts + 1) % 256 = m.appState.wrongAttempts + 1 :=
    Nat.mod_eq_of_lt (by omega)
  simp [runApp, runApp_events, runApp_poll, runApp_key, runApp_manage, lockStateChanged, stateChanged,
    manageState, draw, doAction, doAction_alert, keyToAction, nextScreen, nextScreen_CODE, isValidCodeValue,
    isValidCode, hkey, hv, hmod, h1, h2, h3, h4, h5, hk, hlen, he]

/-- The ticks up to a confirm of a complete code that does not open an occupied compartment. -/
theorem runTicks_failed_confirm (m : Machine) (c : List Char) (h : CodeEntryReady m)
    (hs : m.secretCode = codeBuffer []) (he : m.appState.isEmpty = false)
    (hlen : c.length = 6) (hc : ∀ d ∈ c, d ∈ digits) (hne : c ≠ cstr m.savedCode)
    (hw : m.appState.wrongAttempts < 255) :
    runTicks (thenPress (c ++ ['#'])) m
      = { m with
          secretCode := codeBuffer c
          stateChanged_previousState := appStateEnum.INVALID_CREDENTIALS
          appState := { m.appState with
            appState := appStateEnum.INVALID_CREDENTIALS
            isKeyPressed := true
            wrongAttempts := m.appState.wrongAttempts + 1 }
          trace := m.trace ++ [Event.nanosleep 3] } := by
  have hnul : NUL ∉ c := NUL_not_mem_of_digits hc
  obtain ⟨kp, hkp⟩ := thenPress_digits c hc m [] h hs (by simp) (by simp [hlen])
  rw [thenPress_append, runTicks_append, hkp]
  let m2 : Machine := { m with
    secretCode := codeBuffer c
    appState := { m.appState with isKeyPressed := kp } }
  have hm2 : CodeEntryReady m2 := h
  let m3 : Machine := { m2 with appState := { m2.appState with isKeyPressed := false } }
  have hm3 : CodeEntryReady m3 := h
  have hl3 : strlen m3.secretCode = 6 := by
    show strlen (codeBuffer c) = 6
    rw [strlen_codeBuffer c (by omega) hnul, hlen]
  have hne3 : cstr m3.secretCode ≠ cstr m3.savedCode := by
    show cstr (codeBuffer c) ≠ cstr m.savedCode
    rw [cstr_codeBuffer c (by omega) hnul]; exact hne
  have e2 : runApp (some LOCK_CLOSED) (some NUL) m2 = (0, m3) := tick_noKey m2 hm2
  have e3 := tick_confirm_mismatch m3 hm3 rfl hl3 he hne3 hw
  show (runApp (some LOCK_CLOSED) (some '#') (runApp (some LOCK_CLOSED) (some NUL) m2).2).2 = _
  rw [e2, e3]

/-- The tick after a failed confirm, without a key: the forced advance. -/
theorem tick_auto_advance (m : Machine) (s : List Char) (hf : m.fstRun = false)
    (hl : m.lockStateChanged_previousState = LOCK_CLOSED)
    (hst : m.appState.appState = appStateEnum.INVALID_CREDENTIALS)
    (hp : m.stateChanged_previousState = appStateEnum.INVALID_CREDENTIALS)
    (hs : m.secretCode = codeBuffer s) (hlen : s.length ≤ 6) :
    runApp (some LOCK_CLOSED) (some NUL) m
      = (0, { m with
          alert := true
          secretCode := codeBuffer []
          stateChanged_previousState :=
            if m.appState.wrongAttempts ≥ 3 then appStateEnum.DRAWER_LOCKED
            else appStateEnum.CODE
          appState := { m.appState with
            appState :=
              if m.appState.wrongAttempts ≥ 3 then appStateEnum.DRAWER_LOCKED
              else appStateEnum.CODE
            isKeyPressed := false
            redrawRequired := false }
          trace := m.trace
            ++ (if m.alert = false then
                  [Event.Log_Debug "Alert!\n",
                    Event.SendTelemetry "ButtonPress" "Alert! Lock open."]
                else [])
            ++ (if m.appState.wrongAttempts ≥ 3 then [Event.nanosleep 60] else []) }) := by
  have hc := clear_codeBuffer s hlen
  by_cases ha : m.alert = false <;> by_cases hw : m.appState.wrongAttempts ≥ 3 <;>
    simp [runApp, runApp_events, runApp_poll, runApp_key, runApp_manage, lockStateChanged, stateChanged,
      manageState, draw, doAction, doAction_alert, keyToAction, nextScreen, clearSecretCode,
      hf, hl, hst, hp, hs, hc, ha, hw]

/-- One failed attempt from code entry at rest: the state right after the confirm and the
state after the forced advance. -/
theorem attempt_failed (m : Machine) (c : List Char) (h : CodeEntryReady m)
    (hs : m.secretCode = codeBuffer []) (he : m.appState.isEmpty = false)
    (hlen : c.length = 6) (hc : ∀ d ∈ c, d ∈ digits) (hne : c ≠ cstr m.savedCode)
    (hw : m.appState.wrongAttempts < 255) :
    ((runTicks (thenPress (c ++ ['#'])) m).appState.appState
        = appStateEnum.INVALID_CREDENTIALS
      ∧ (runTicks (thenPress (c ++ ['#'])) m).appState.wrongAttempts
        = m.appState.wrongAttempts + 1)
    ∧ (runTicks (attemptTicks c) m).appState.wrongAttempts = m.appState.wrongAttempts + 1
    ∧ (runTicks (attemptTicks c) m).appState.appState
        = (if m.appState.wrongAttempts + 1 ≥ 3 then appStateEnum.DRAWER_LOCKED
           else appStateEnum.CODE)
    ∧ (runTicks (attemptTicks c) m).secretCode = codeBuffer []
    ∧ (runTicks (attemptTicks c) m).savedCode = m.savedCode
    ∧ (runTicks (attemptTicks c) m).appState.isEmpty = false
    ∧ (m.appState.wrongAttempts + 1 < 3 → CodeEntryReady (runTicks (attemptTicks c) m)) := by
  have e1 := runTicks_failed_confirm m c h hs he hlen hc hne hw
  obtain ⟨h1, h2, h3, h4, h5⟩ := h
  have e2 := tick_auto_advance (runTicks (thenPress (c ++ ['#'])) m) c
    (by rw [e1]; exact h1) (by rw [e1]; exact h2) (by rw [e1]) (by rw [e1]) (by rw [e1])
    (by omega)
  have e3 : runTicks (attemptTicks c) m
      = (runApp (some LOCK_CLOSED) (some NUL) (runTicks (thenPress (c ++ ['#'])) m)).2 := by
    rw [attemptTicks, runTicks_append]; rfl
  refine ⟨by rw [e1]; exact ⟨rfl, rfl⟩, ?_⟩
  rw [e3, e2, e1]
  refine ⟨rfl, rfl, rfl, rfl, he, ?_⟩
  intro hlt
  have : ¬ (m.appState.wrongAttempts + 1 ≥ 3) := by omega
  exact ⟨h1, h2, by simp [this], by simp [this], rfl⟩

/-- C4: in `INVALID_CREDENTIALS` every advance key makes `doAction` call `nextScreen`, which
empties the pending code, leaves `wrongAttempts` alone and moves to `DRAWER_LOCKED` when
`wrongAttempts >= 3` and to `CODE` otherwise. Hence from code entry at rest over an occupied
compartment with `wrongAttempts = 0`, three attempts with complete codes that differ from
`savedCode` end their confirms in `INVALID_CREDENTIALS` with `wrongAttempts` 1, 2 and 3, the
forced advance after the first and the second returns to `CODE`, and the one after the third
ends in `DRAWER_LOCKED`. -/
theorem C4_three_strikes :
    (∀ (m : Machine) (key : Char),
      m.appState.appState = appStateEnum.INVALID_CREDENTIALS →
      keyToAction key = actionEnum.NEXT_SCREEN →
      (doAction key m).1 = true
      ∧ (nextScreen key m).1 = true
      ∧ (doAction key m).2.secretCode = (nextScreen key m).2.secretCode
      ∧ (doAction key m).2.appState = (nextScreen key m).2.appState
      ∧ strlen (nextScreen key m).2.secretCode = 0
      ∧ (nextScreen key m).2.appState.wrongAttempts = m.appState.wrongAttempts
      ∧ (m.appState.wrongAttempts ≥ 3 →
          (nextScreen key m).2.appState.appState = appStateEnum.DRAWER_LOCKED)
      ∧ (m.appState.wrongAttempts < 3 →
          (nextScreen key m).2.appState.appState = appStateEnum.CODE))
    ∧ (∀ (m0 : Machine) (c1 c2 c3 : List Char),
      CodeEntryReady m0 → m0.secretCode = codeBuffer [] → m0.appState.isEmpty = false →
      m0.appState.wrongAttempts = 0 →
      c1.length = 6 → (∀ d ∈ c1, d ∈ digits) → c1 ≠ cstr m0.savedCode →
      c2.length = 6 → (∀ d ∈ c2, d ∈ digits) → c2 ≠ cstr m0.savedCode →
      c3.length = 6 → (∀ d ∈ c3, d ∈ digits) → c3 ≠ cstr m0.savedCode →
      (runTicks (thenPress (c1 ++ ['#'])) m0).appState.appState
          = appStateEnum.INVALID_CREDENTIALS
      ∧ (runTicks (thenPress (c1 ++ ['#'])) m0).appState.wrongAttempts = 1
      ∧ (runTicks (attemptTicks c1) m0).appState.appState = appStateEnum.CODE
      ∧ (runTicks (attemptTicks c1 ++ thenPress (c2 ++ ['#'])) m0).appState.appState
          = appStateEnum.INVALID_CREDENTIALS
      ∧ (runTicks (attemptTicks c1 ++ thenPress (c2 ++ ['#'])) m0).appState.wrongAttempts = 2
      ∧ (runTicks (attemptTicks c1 ++ attemptTicks c2) m0).appState.appState
          = appStateEnum.CODE
      ∧ (runTicks (attemptTicks c1 ++ attemptTicks c2 ++ thenPress (c3 ++ ['#'])) m0
          ).appState.appState = appStateEnum.INVALID_CREDENTIALS
      ∧ (runTicks (attemptTicks c1 ++ attemptTicks c2 ++ thenPress (c3 ++ ['#'])) m0
          ).appState.wrongAttempts = 3
      ∧ (runTicks (attemptTicks c1 ++ attemptTicks c2 ++ attemptTicks c3) m0
          ).appState.appState = appStateEnum.DRAWER_LOCKED) := by
  constructor
  · intro m key hm hkey
    have hns : (nextScreen key m) = (true, { clearSecretCode m with
        appState := { m.appState with
          appState := if m.appState.wrongAttempts ≥ 3 then appStateEnum.DRAWER_LOCKED
            else appStateEnum.CODE } }) := by
      by_cases hw3 : m.appState.wrongAttempts ≥ 3 <;>
        simp [nextScreen, hm, clearSecretCode, hw3]
    have hda : (doAction key m).1 = (nextScreen key m).1
        ∧ (doAction key m).2.secretCode = (nextScreen key m).2.secretCode
        ∧ (doAction key m).2.appState = (nextScreen key m).2.appState := by
      by_cases hal : key = '!' ∧ m.alert = false
      · obtain ⟨hk, ha⟩ := hal
        subst hk
        by_cases hw3 : m.appState.wrongAttempts ≥ 3 <;>
          simp [doAction, doAction_alert, keyToAction, nextScreen, hm, clearSecretCode, ha, hw3]
      · have : doAction key m = nextScreen key m := by
          have hal2 : key = '!' → m.alert = true := by
            intro hk
            cases hma : m.alert
            · exact absurd ⟨hk, hma⟩ hal
            · rfl
          simp only [doAction, doAction_alert, hkey, hm]
          by_cases hk : key = '!'
          · simp [hk, hal2 hk]
          · simp [hk]
        rw [this]; exact ⟨rfl, rfl, rfl⟩
    refine ⟨?_, ?_, hda.2.1, hda.2.2, ?_, ?_, ?_, ?_⟩
    · rw [hda.1, hns]
    · rw [hns]
    · rw [hns]; exact strlen_clearSecretCode m
    · rw [hns]
    · intro hw3; rw [hns]; simp [hw3]
    · intro hw3
      have : ¬ m.appState.wrongAttempts ≥ 3 := by omega
      rw [hns]; simp [this]
  · intro m0 c1 c2 c3 h0 hs he hw hl1 hd1 hn1 hl2 hd2 hn2 hl3 hd3 hn3
    obtain ⟨⟨a1, a2⟩, a3, a4, a5, a6, a7, a8⟩ :=
      attempt_failed m0 c1 h0 hs he hl1 hd1 hn1 (by omega)
    rw [hw] at a2 a3 a4 a8
    have r1 := a8 (by omega)
    obtain ⟨⟨b1, b2⟩, b3, b4, b5, b6, b7, b8⟩ :=
      attempt_failed (runTicks (attemptTicks c1) m0) c2 r1 a5 a7 hl2 hd2 (by rw [a6]; exact hn2)
        (by omega)
    rw [a3] at b2 b3 b4 b8
    have r2 := b8 (by omega)
    rw [← runTicks_append] at b1 b2 b3 b4 b5 b6 b7 r2
    obtain ⟨⟨d1, d2⟩, d3, d4, -⟩ :=
      attempt_failed (runTicks (attemptTicks c1 ++ attemptTicks c2) m0) c3 r2 b5 b7 hl3 hd3
        (by rw [b6, a6]; exact hn3) (by omega)
    rw [b3] at d2 d3 d4
    rw [← runTicks_append] at d1 d2 d3 d4
    exact ⟨a1, a2, by simpa using a4, b1, b2, by simpa using b4, d1, d2, by simpa using d4⟩

/-- C4 at concrete sessions: `exampleInvalid` with the forced key `'!'`, and three attempts
with `123456` from `exampleReady`, whose compartment is locked by `654321`. -/
theorem C4_three_strikes_witness :
    (nextScreen '!' exampleInvalid).2.appState.appState = appStateEnum.DRAWER_LOCKED
    ∧ (runTicks (attemptTicks ['1', '2', '3', '4', '5', '6']
          ++ attemptTicks ['1', '2', '3', '4', '5', '6']
          ++ attemptTicks ['1', '2', '3', '4', '5', '6']) exampleReady).appState.appState
        = appStateEnum.DRAWER_LOCKED :=
  ⟨(C4_three_strikes.1 exampleInvalid '!' rfl (by decide)).2.2.2.2.2.2.1 (by decide),
    (C4_three_strikes.2 exampleReady
      ['1', '2', '3', '4', '5', '6'] ['1', '2', '3', '4', '5', '6'] ['1', '2', '3', '4', '5', '6']
      ⟨rfl, rfl, rfl, rfl, rfl⟩ (by decide) rfl rfl
      rfl (by decide) (by decide) rfl (by decide) (by decide) rfl (by decide) (by decide)
    ).2.2.2.2.2.2.2.2⟩

/-! ## Preservation of the invariants -/

theorem nextScreen_CODE_inv (key : Char) (m : Machine) (h : ActionInv m)
    (hst : m.appState.appState = appStateEnum.SELECT ∨ m.appState.appState = appStateEnum.CODE) :
    ActionInv (nextScreen_CODE key m).2 := by
  obtain ⟨h1, h2, h3, h4, h5⟩ := h
  have hw : m.appState.wrongAttempts ≤ 2 := by
    rcases hst with hs | hs <;> exact h2 (by simp [hs]) (by simp [hs])
  unfold nextScreen_CODE
  split_ifs with hc hm
  · have hmod : (m.appState.wrongAttempts + 1) % 256 = m.appState.wrongAttempts + 1 :=
      Nat.mod_eq_of_lt (by omega)
    refine ⟨?_, ?_, ?_, ?_, h5⟩
    · show (m.appState.wrongAttempts + 1) % 256 ≤ 3
      omega
    · intro hne; exact absurd rfl hne
    · intro _ _ hne; exact absurd rfl hne
    · intro hne; cases hne
  · refine ⟨h1, fun _ _ => hw, ?_, ?_, h5⟩
    · intro _ hne; exact absurd rfl hne
    · intro _
      right; right
      have := hc.1
      simp only [isValidCodeValue] at this
      by_contra hlen
      simp [hlen] at this
  · exact ⟨h1, h2, h3, h4, h5⟩

theorem nextScreen_inv (key : Char) (m : Machine) (h : ActionInv m) :
    ActionInv (nextScreen key m).2 := by
  have hcode := nextScreen_CODE_inv key m h
  obtain ⟨h1, h2, h3, h4, h5⟩ := h
  unfold nextScreen
  split
  · next hst =>
    split_ifs
    · exact ⟨h1, fun _ _ => h2 (by simp [hst]) (by simp [hst]),
        fun hne => absurd rfl hne, fun hne => (by cases hne), h5⟩
    · exact hcode (Or.inl hst)
  · next hst => exact hcode (Or.inr hst)
  · next hst =>
    split_ifs
    · exact ⟨h1, fun _ _ => h2 (by simp [hst]) (by simp [hst]),
        fun _ _ _ => strlen_clearSecretCode m, fun hne => (by cases hne), h5⟩
    · exact ⟨h1, h2, h3, h4, h5⟩
  · next hst =>
    split_ifs
    · exact ⟨h1, fun _ _ => h2 (by simp [hst]) (by simp [hst]),
        fun _ _ _ => h3 (by simp [hst]) (by simp [hst]) (by simp [hst]),
        fun hne => (by cases hne), h5⟩
    · exact ⟨h1, h2, h3, h4, h5⟩
  · next hst =>
    split_ifs
    · exact ⟨h1, fun _ _ => h2 (by simp [hst]) (by simp [hst]),
        fun _ _ _ => h3 (by simp [hst]) (by simp [hst]) (by simp [hst]),
        fun hne => (by cases hne), h5⟩
    · exact ⟨h1, fun _ _ => h2 (by simp [hst]) (by simp [hst]),
        fun _ hne => absurd rfl hne, fun _ => Or.inr (Or.inl rfl), h5⟩
    · exact ⟨h1, h2, h3, h4, h5⟩
  · next hst =>
    dsimp only
    split_ifs with hw
    · exact ⟨h1, fun _ hne => absurd rfl hne, fun _ _ _ => strlen_clearSecretCode m,
        fun hne => (by cases hne), h5⟩
    · refine ⟨h1, fun _ _ => ?_, fun hne => absurd rfl hne, fun hne => (by cases hne), h5⟩
      have : ¬ (m.appState.wrongAttempts ≥ 3) := hw
      show m.appState.wrongAttempts ≤ 2
      omega
  · next hst =>
    exact ⟨Nat.zero_le _, fun _ _ => Nat.zero_le _,
      fun _ _ _ => h3 (by simp [hst]) (by simp [hst]) (by simp [hst]),
      fun hne => (by cases hne), h5⟩
  · exact ⟨h1, h2, h3, h4, h5⟩

theorem previousScreen_inv (m : Machine) (h : ActionInv m) :
    ActionInv (previousScreen m).2 := by
  obtain ⟨h1, h2, h3, h4, h5⟩ := h
  unfold previousScreen
  split
  · next hst =>
    exact ⟨h1, fun _ _ => h2 (by simp [hst]) (by simp [hst]),
      fun _ _ _ => strlen_clear m.secretCode, fun hne => (by cases hne), h5⟩
  · exact ⟨h1, h2, h3, h4, h5⟩

theorem updateCodeValue_inv (c : Char) (m : Machine) (h : ActionInv m)
    (hst : m.appState.appState = appStateEnum.CODE) : ActionInv (updateCodeValue c m).2 := by
  obtain ⟨h1, h2, h3, h4, h5⟩ := h
  unfold updateCodeValue
  dsimp only
  split_ifs
  · exact ⟨h1, h2, h3, h4, h5⟩
  · exact ⟨h1, h2, fun hne => absurd hst hne, fun hw => (by rw [hst] at hw; cases hw), h5⟩

theorem removeDigitFromCodeValue_inv (m : Machine) (h : ActionInv m)
    (hst : m.appState.appState = appStateEnum.CODE) :
    ActionInv (removeDigitFromCodeValue m).2 := by
  obtain ⟨h1, h2, h3, h4, h5⟩ := h
  unfold removeDigitFromCodeValue
  dsimp only
  split_ifs
  · exact ⟨h1, h2, h3, h4, h5⟩
  · exact ⟨h1, h2, fun hne => absurd hst hne, fun hw => (by rw [hst] at hw; cases hw), h5⟩

theorem doAction_alert_inv (key : Char) (m : Machine) (h : ActionInv m) :
    ActionInv (doAction_alert key m) := by
  unfold doAction_alert
  split_ifs
  · exact h
  · exact h

theorem doAction_inv (key : Char) (m : Machine) (h : ActionInv m) :
    ActionInv (doAction key m).2 := by
  have hm1 := doAction_alert_inv key m h
  unfold doAction
  generalize doAction_alert key m = m1 at hm1
  dsimp only
  split
  · exact nextScreen_inv key m1 hm1
  · exact previousScreen_inv m1 hm1
  · split_ifs with hst
    · exact updateCodeValue_inv key m1 hm1 hst
    · exact hm1
  · split_ifs with hst
    · exact removeDigitFromCodeValue_inv m1 hm1 hst
    · exact hm1
  · exact hm1

/-! ## What an action leaves alone -/

theorem SameFrame_refl (m : Machine) : SameFrame m m := ⟨rfl, rfl, rfl, rfl, rfl, rfl, rfl⟩

theorem nextScreen_frame (key : Char) (m : Machine) : SameFrame m (nextScreen key m).2 := by
  unfold nextScreen nextScreen_CODE
  split <;> dsimp only <;> (try split_ifs) <;> exact ⟨rfl, rfl, rfl, rfl, rfl, rfl, rfl⟩

theorem previousScreen_frame (m : Machine) : SameFrame m (previousScreen m).2 := by
  unfold previousScreen
  split <;> exact ⟨rfl, rfl, rfl, rfl, rfl, rfl, rfl⟩

theorem doAction_frame (key : Char) (m : Machine) : SameFrame m (doAction key m).2 := by
  have h1 : SameFrame m (doAction_alert key m) := by
    unfold doAction_alert
    split_ifs <;> exact ⟨rfl, rfl, rfl, rfl, rfl, rfl, rfl⟩
  unfold doAction
  generalize doAction_alert key m = m1 at h1
  have key1 : ∀ r : Machine, SameFrame m1 r → SameFrame m r := by
    intro r hr
    obtain ⟨a1, a2, a3, a4, a5, a6, a7⟩ := h1
    obtain ⟨b1, b2, b3, b4, b5, b6, b7⟩ := hr
    exact ⟨b1.trans a1, b2.trans a2, b3.trans a3, b4.trans a4, b5.trans a5, b6.trans a6,
      b7.trans a7⟩
  apply key1
  dsimp only
  split
  · exact nextScreen_frame key m1
  · exact previousScreen_frame m1
  · unfold updateCodeValue
    dsimp only
    split_ifs <;> exact ⟨rfl, rfl, rfl, rfl, rfl, rfl, rfl⟩
  · unfold removeDigitFromCodeValue
    dsimp only
    split_ifs <;> exact ⟨rfl, rfl, rfl, rfl, rfl, rfl, rfl⟩
  · exact ⟨rfl, rfl, rfl, rfl, rfl, rfl, rfl⟩

/-! ## Where the state can go in one action -/

theorem keyToAction_hash : keyToAction '#' = actionEnum.NEXT_SCREEN := by decide

theorem keyToAction_star {key : Char} (h : keyToAction key = actionEnum.PREVIOUS_SCREEN) :
    key = '*' := by
  unfold keyToAction at h
  split_ifs at h with h1 h2
  exact h2

theorem nextScreen_CODE_transition (key : Char) (m : Machine)
    (h0 : m.appState.appState = appStateEnum.SELECT ∨ m.appState.appState = appStateEnum.CODE) :
    Moves key m (nextScreen_CODE key m).2 := by
  unfold nextScreen_CODE
  split_ifs with hc hm
  · have hlen : strlen m.secretCode = 6 := by
      have := hc.1
      simp only [isValidCodeValue] at this
      by_contra hl
      simp [hl] at this
    exact Transition.reject h0 hc.2 hlen rfl rfl rfl rfl
  · have hlen : strlen m.secretCode = 6 := by
      have := hc.1
      simp only [isValidCodeValue] at this
      by_contra hl
      simp [hl] at this
    have hv : m.appState.isEmpty = true ∨ strcmp m.secretCode m.savedCode = 0 := by
      by_cases he : m.appState.isEmpty = true
      · exact Or.inl he
      · right
        by_contra hs
        exact hm ⟨by simpa using he, by simp [isValidCode, hs]⟩
    exact Transition.accept h0 hc.2 hlen hv rfl rfl rfl rfl
  · exact Transition.stay (fun _ => by rcases h0 with h | h <;> simp [h]) rfl rfl rfl
      (fun _ => rfl)

theorem nextScreen_transition (key : Char) (m : Machine)
    (hk : keyToAction key = actionEnum.NEXT_SCREEN) :
    Moves key m (nextScreen key m).2 := by
  unfold nextScreen
  split
  · next hst =>
    split_ifs with hA
    · exact Transition.menu hst hA rfl rfl rfl rfl
    · exact nextScreen_CODE_transition key m (Or.inl hst)
  · next hst => exact nextScreen_CODE_transition key m (Or.inr hst)
  · next hst =>
    split_ifs with hl
    · exact Transition.opened hst hk hl rfl rfl rfl (strlen_clearSecretCode m)
    · exact Transition.stay (fun _ => by simp [hst]) rfl rfl rfl (fun _ => rfl)
  · next hst =>
    split_ifs with hl
    · exact Transition.closed hst hk hl rfl rfl rfl rfl
    · exact Transition.stay (fun _ => by simp [hst]) rfl rfl rfl (fun _ => rfl)
  · next hst =>
    split_ifs with hA hB
    · exact Transition.done hst hA rfl rfl rfl rfl
    · exact Transition.reopen hst hB rfl rfl rfl rfl
    · exact Transition.stay (fun _ => by simp [hst]) rfl rfl rfl (fun _ => rfl)
  · next hst =>
    dsimp only
    split_ifs with hw
    · exact Transition.lockout hst hk hw rfl rfl rfl (strlen_clearSecretCode m)
    · exact Transition.retry hst hk (by
        have : ¬ m.appState.wrongAttempts ≥ 3 := hw
        omega) rfl rfl rfl (strlen_clearSecretCode m)
  · next hst => exact Transition.unlocked hst hk rfl rfl rfl rfl
  · next h1 h2 h3 h4 h5 h6 h7 =>
    exact Transition.stay (fun _ => ⟨h6, h7⟩) rfl rfl rfl (fun _ => rfl)

/-- Every call of `doAction` makes one of the moves of `Transition`. -/
theorem doAction_transition (key : Char) (m : Machine) :
    Moves key m (doAction key m).2 := by
  have ha : (doAction_alert key m).appState = m.appState
      ∧ (doAction_alert key m).secretCode = m.secretCode
      ∧ (doAction_alert key m).savedCode = m.savedCode := by
    unfold doAction_alert; split_ifs <;> exact ⟨rfl, rfl, rfl⟩
  unfold doAction Moves
  generalize doAction_alert key m = m1 at ha
  rw [← ha.1, ← ha.2.1, ← ha.2.2]
  dsimp only
  split
  · next hk => exact nextScreen_transition key m1 hk
  · next hk =>
    unfold previousScreen
    split
    · next hst => exact Transition.back hst (keyToAction_star hk) rfl rfl rfl (strlen_clear _)
    · exact Transition.stay (fun h => by simp [hk] at h) rfl rfl rfl (fun _ => rfl)
  · next hk =>
    unfold updateCodeValue
    dsimp only
    split_ifs with hst hl
    · exact Transition.stay (fun h => by simp [hk] at h) rfl rfl rfl (fun _ => rfl)
    · exact Transition.stay (fun h => by simp [hk] at h) rfl rfl rfl
        (fun hne => absurd hst hne)
    · exact Transition.stay (fun h => by simp [hk] at h) rfl rfl rfl (fun _ => rfl)
  · next hk =>
    unfold removeDigitFromCodeValue
    dsimp only
    split_ifs with hst hl
    · exact Transition.stay (fun h => by simp [hk] at h) rfl rfl rfl (fun _ => rfl)
    · exact Transition.stay (fun h => by simp [hk] at h) rfl rfl rfl
        (fun hne => absurd hst hne)
    · exact Transition.stay (fun h => by simp [hk] at h) rfl rfl rfl (fun _ => rfl)
  · next hk =>
    exact Transition.stay (fun h => by simp [hk] at h) rfl rfl rfl (fun _ => rfl)

/-! ## The parts of a tick -/

theorem initial_TickInv : TickInv initial :=
  ⟨⟨by decide, fun _ _ => by decide, fun _ _ _ => by decide, fun h => (by cases h),
    fun h => (by cases h)⟩, fun h => (by cases h), fun _ => ⟨rfl, by decide⟩⟩

/-- The poll after the first tick writes at most the two copies of the sensor position. -/
theorem runApp_poll_later (gpio : Option GPIO_Value_Type) (m : Machine)
    (hf : m.fstRun = false) :
    ∃ l lp, (runApp_poll gpio m).2 = { m with
      appState := { m.appState with lockState := l }
      lockStateChanged_previousState := lp } := by
  unfold runApp_poll lockStateChanged
  rcases gpio with _ | v
  · exact ⟨m.appState.lockState, m.lockStateChanged_previousState, by cases m; simp_all⟩
  · by_cases hv : v = m.lockStateChanged_previousState
    · exact ⟨m.appState.lockState, m.lockStateChanged_previousState, by cases m; simp_all⟩
    · exact ⟨v, v, by simp [hf, hv]⟩

/-- The poll of the first tick ends with the initialised session record. -/
theorem runApp_poll_first (gpio : Option GPIO_Value_Type) (m : Machine)
    (hf : m.fstRun = true) :
    ∃ lp, (runApp_poll gpio m).2 = { m with
      appState := appStateStructInit m.appState
      fstRun := false
      lockStateChanged_previousState := lp } := by
  unfold runApp_poll lockStateChanged
  rcases gpio with _ | v
  · exact ⟨m.lockStateChanged_previousState, by simp [hf]⟩
  · by_cases hv : v = m.lockStateChanged_previousState
    · exact ⟨m.lockStateChanged_previousState, by simp [hf, hv]⟩
    · exact ⟨v, by simp [hf, hv, appStateStructInit]⟩

theorem runApp_poll_inv (gpio : Option GPIO_Value_Type) (m : Machine) (h : TickInv m) :
    ActionInv (runApp_poll gpio m).2 ∧ (runApp_poll gpio m).2.fstRun = false
    ∧ ((runApp_poll gpio m).2.appState.appState = appStateEnum.INVALID_CREDENTIALS →
        (runApp_poll gpio m).2.appState.isKeyPressed = true) := by
  obtain ⟨⟨h1, h2, h3, h4, h5⟩, h6, h7⟩ := h
  cases hf : m.fstRun
  · obtain ⟨l, lp, hp⟩ := runApp_poll_later gpio m hf
    rw [hp]
    exact ⟨⟨h1, h2, h3, h4, h5⟩, hf, h6⟩
  · obtain ⟨lp, hp⟩ := runApp_poll_first gpio m hf
    rw [hp]
    refine ⟨⟨Nat.zero_le _, fun _ _ => Nat.zero_le _, fun _ _ _ => (h7 hf).2,
      fun h => (by cases h), fun _ h => (by cases h)⟩, rfl, fun h => (by cases h)⟩

/-- The first part of a tick is the poll followed by at most one call `doAction '!'`, which
is made whenever the poll leaves one of the two lockout screens. -/
theorem runApp_events_cases (gpio : Option GPIO_Value_Type) (m : Machine) :
    (runApp_events gpio m = (runApp_poll gpio m).2
      ∧ (runApp_poll gpio m).2.appState.appState ≠ appStateEnum.INVALID_CREDENTIALS
      ∧ (runApp_poll gpio m).2.appState.appState ≠ appStateEnum.DRAWER_LOCKED)
    ∨ runApp_events gpio m = { (doAction '!' (runApp_poll gpio m).2).2 with
        appState := { (doAction '!' (runApp_poll gpio m).2).2.appState with
          redrawRequired := (doAction '!' (runApp_poll gpio m).2).1 } } := by
  unfold runApp_events
  generalize runApp_poll gpio m = cp
  obtain ⟨changed, p⟩ := cp
  dsimp only
  split_ifs with h1 h2
  · exact Or.inr rfl
  · exact Or.inr rfl
  · left
    refine ⟨rfl, fun h => h1 (Or.inl h), fun h => h1 (Or.inr h)⟩

theorem runApp_events_moves (gpio : Option GPIO_Value_Type) (m : Machine) :
    Moves '!' (runApp_poll gpio m).2 (runApp_events gpio m)
    ∧ SameFrame (runApp_poll gpio m).2 (runApp_events gpio m) := by
  rcases runApp_events_cases gpio m with ⟨h, h1, h2⟩ | h
  · rw [h]
    exact ⟨Transition.stay (fun _ => ⟨h1, h2⟩) rfl rfl rfl (fun _ => rfl), SameFrame_refl _⟩
  · rw [h]
    exact ⟨doAction_transition '!' _, doAction_frame '!' _⟩

theorem runApp_events_inv (gpio : Option GPIO_Value_Type) (m : Machine) (h : TickInv m) :
    ActionInv (runApp_events gpio m) ∧ (runApp_events gpio m).fstRun = false
    ∧ (runApp_events gpio m).appState.appState ≠ appStateEnum.INVALID_CREDENTIALS
    ∧ ((runApp_events gpio m).appState.appState = appStateEnum.DRAWER_LOCKED →
        (runApp_events gpio m).appState.isKeyPressed = true
        ∧ (runApp_poll gpio m).2.appState.appState = appStateEnum.INVALID_CREDENTIALS)
    ∧ ((runApp_events gpio m).appState.appState = appStateEnum.WAIT →
        (runApp_poll gpio m).2.appState.appState = appStateEnum.WAIT) := by
  obtain ⟨hp1, hp2, hp3⟩ := runApp_poll_inv gpio m h
  obtain ⟨hmv, hfr⟩ := runApp_events_moves gpio m
  have hbang : keyToAction '!' = actionEnum.NEXT_SCREEN := by decide
  have hinv : ActionInv (runApp_events gpio m) := by
    rcases runApp_events_cases gpio m with ⟨hc, -, -⟩ | hc
    · rw [hc]; exact hp1
    · rw [hc]; exact doAction_inv '!' _ hp1
  refine ⟨hinv, hfr.1.trans hp2, ?_, ?_, ?_⟩
  · intro hb
    cases hmv with
    | stay hn h1 => exact (hn hbang).1 (h1.symm.trans hb)
    | reject _ hk => exact absurd hk (by decide)
    | _ => simp_all
  · intro hb
    cases hmv with
    | stay hn h1 => exact absurd (h1.symm.trans hb) (hn hbang).2
    | lockout h0 => exact ⟨hfr.2.2.1.trans (hp3 h0), h0⟩
    | _ => simp_all
  · intro hb
    cases hmv with
    | stay hn h1 => exact h1.symm.trans hb
    | accept _ hk => exact absurd hk (by decide)
    | reopen _ hk => exact absurd hk (by decide)
    | _ => simp_all

/-- The key handling of a tick either leaves everything but `isKeyPressed` alone or, for a
fresh press, marks the key as pressed and calls `doAction key`. -/
theorem runApp_key_cases (key : Char) (b : Machine) :
    (key ≠ NUL ∧ b.appState.isKeyPressed = false
      ∧ runApp_key key b
        = { (doAction key { b with appState := { b.appState with isKeyPressed := true } }).2 with
            appState :=
              { (doAction key
                  { b with appState := { b.appState with isKeyPressed := true } }).2.appState with
                redrawRequired :=
                  (doAction key
                    { b with appState := { b.appState with isKeyPressed := true } }).1 } })
    ∨ ((key = NUL ∨ b.appState.isKeyPressed = true)
      ∧ ∃ kp, runApp_key key b = { b with appState := { b.appState with isKeyPressed := kp } }) := by
  unfold runApp_key
  split_ifs with h1 h2
  · exact Or.inl ⟨h1.1, h1.2, rfl⟩
  · exact Or.inr ⟨Or.inl h2, false, rfl⟩
  · right
    have hk : b.appState.isKeyPressed = true := by
      cases hb : b.appState.isKeyPressed
      · exact absurd ⟨h2, hb⟩ h1
      · rfl
    exact ⟨Or.inr hk, b.appState.isKeyPressed, rfl⟩

/-- A handled key press makes one of the moves and leaves the key marked as pressed. -/
theorem runApp_key_handled (key : Char) (b : Machine) (hk : key ≠ NUL)
    (hp : b.appState.isKeyPressed = false) :
    Moves key b (runApp_key key b) ∧ (runApp_key key b).appState.isKeyPressed = true
    ∧ (runApp_key key b).fstRun = b.fstRun ∧ (runApp_key key b).savedCode = b.savedCode
    ∧ (runApp_key key b).appState.isEmpty = b.appState.isEmpty
    ∧ (runApp_key key b).stateChanged_previousState = b.stateChanged_previousState := by
  rcases runApp_key_cases key b with ⟨_, _, hc⟩ | ⟨h, _⟩
  · rw [hc]
    have hfr := doAction_frame key { b with appState := { b.appState with isKeyPressed := true } }
    exact ⟨doAction_transition key
        { b with appState := { b.appState with isKeyPressed := true } },
      hfr.2.2.1, hfr.1, hfr.2.1, hfr.2.2.2.1, hfr.2.2.2.2.1⟩
  · rcases h with h | h
    · exact absurd h hk
    · rw [hp] at h; cases h

theorem runApp_key_inv (key : Char) (b : Machine) (h : ActionInv b)
    (hne : b.appState.appState ≠ appStateEnum.INVALID_CREDENTIALS) :
    ActionInv (runApp_key key b) ∧ (runApp_key key b).fstRun = b.fstRun
    ∧ ((runApp_key key b).appState.appState = appStateEnum.INVALID_CREDENTIALS →
        (runApp_key key b).appState.isKeyPressed = true) := by
  rcases runApp_key_cases key b with ⟨hk, hp, hc⟩ | ⟨_, kp, hc⟩
  · have hfr := doAction_frame key { b with appState := { b.appState with isKeyPressed := true } }
    have hi := doAction_inv key { b with appState := { b.appState with isKeyPressed := true } } h
    rw [hc]
    exact ⟨hi, hfr.1, fun _ => hfr.2.2.1⟩
  · rw [hc]
    exact ⟨h, rfl, fun hb => absurd hb hne⟩

/-- The last part of a tick: `stateChanged` leaves the current state in its static, the
redraw flag ends up clear, and `manageState` runs with the outcome of the comparison. -/
theorem runApp_manage_eq (c : Machine) :
    runApp_manage c
      = (0, manageState (decide (c.appState.appState ≠ c.stateChanged_previousState))
          { c with
            stateChanged_previousState := c.appState.appState
            appState := { c.appState with redrawRequired := false } }) := by
  unfold runApp_manage stateChanged draw
  by_cases h1 : c.appState.appState = c.stateChanged_previousState <;>
    cases h2 : c.appState.redrawRequired <;>
    simp [h1, h2]
  all_goals
    congr 1
    cases c with
    | mk a1 a2 a3 a4 a5 a6 a7 a8 =>
      cases a6
      simp_all

theorem manageState_inv (isNew : Bool) (x : Machine) (h : ActionInv x)
    (hp : x.stateChanged_previousState = x.appState.appState)
    (hJ : isNew = true → x.appState.appState = appStateEnum.WAIT →
      x.appState.isReopen = true ∨ strlen x.secretCode = 6) :
    ActionInv (manageState isNew x)
    ∧ (manageState isNew x).stateChanged_previousState = x.stateChanged_previousState
    ∧ (manageState isNew x).fstRun = x.fstRun
    ∧ (manageState isNew x).secretCode = x.secretCode
    ∧ (manageState isNew x).appState.isKeyPressed = x.appState.isKeyPressed
    ∧ (x.appState.appState ≠ appStateEnum.WAIT →
        (manageState isNew x).appState.wrongAttempts = x.appState.wrongAttempts)
    ∧ ((manageState isNew x).appState.wrongAttempts = x.appState.wrongAttempts
        ∨ (manageState isNew x).appState.wrongAttempts = 0) := by
  obtain ⟨h1, h2, h3, h4, h5⟩ := h
  unfold manageState
  split
  · next hst =>
    have hw2 : x.appState.wrongAttempts ≤ 2 := h2 (by simp [hst]) (by simp [hst])
    split_ifs with c1 c2 c3 c4 c5
    · exact ⟨⟨h1, h2, h3, fun _ => Or.inl (hp.trans hst), h5⟩, rfl, rfl, rfl, rfl,
        fun hne => absurd hst hne, Or.inl rfl⟩
    · have hlen : strlen x.secretCode = 6 := by
        rcases hJ c1 hst with hr | hl
        · exact absurd hr c2
        · exact hl
      refine ⟨⟨h1, h2, h3, fun _ => Or.inl (hp.trans hst), fun _ _ => ?_⟩, rfl, rfl, rfl, rfl,
        fun hne => absurd hst hne, Or.inl rfl⟩
      show strlen (strcpy x.savedCode x.secretCode) = 6
      rw [strlen_strcpy, hlen]
    · exact ⟨⟨Nat.zero_le _, fun _ _ => Nat.zero_le _, h3, fun _ => Or.inl (hp.trans hst),
        fun _ he => (by cases he)⟩, rfl, rfl, rfl, rfl, fun hne => absurd hst hne, Or.inr rfl⟩
    · exact ⟨⟨h1, h2, h3, h4, h5⟩, rfl, rfl, rfl, rfl, fun _ => rfl, Or.inl rfl⟩
    · exact ⟨⟨h1, h2, h3, h4, h5⟩, rfl, rfl, rfl, rfl, fun _ => rfl, Or.inl rfl⟩
    · exact ⟨⟨h1, h2, h3, h4, h5⟩, rfl, rfl, rfl, rfl, fun _ => rfl, Or.inl rfl⟩
  · exact ⟨⟨h1, h2, h3, h4, h5⟩, rfl, rfl, rfl, rfl, fun _ => rfl, Or.inl rfl⟩
  · exact ⟨⟨h1, h2, h3, h4, h5⟩, rfl, rfl, rfl, rfl, fun _ => rfl, Or.inl rfl⟩
  · exact ⟨⟨h1, h2, h3, h4, h5⟩, rfl, rfl, rfl, rfl, fun _ => rfl, Or.inl rfl⟩

/-- What the last part of a tick establishes and what it leaves alone. -/
theorem runApp_manage_inv (c : Machine) (h : ActionInv c) (hf : c.fstRun = false)
    (hk : c.appState.appState = appStateEnum.INVALID_CREDENTIALS →
      c.appState.isKeyPressed = true) :
    TickInv (runApp_manage c).2
    ∧ (runApp_manage c).2.stateChanged_previousState = (runApp_manage c).2.appState.appState
    ∧ (runApp_manage c).2.appState.appState = c.appState.appState
    ∧ (runApp_manage c).2.fstRun = false
    ∧ (runApp_manage c).2.secretCode = c.secretCode
    ∧ (c.appState.appState ≠ appStateEnum.WAIT →
        (runApp_manage c).2.appState.wrongAttempts = c.appState.wrongAttempts)
    ∧ ((runApp_manage c).2.appState.wrongAttempts = c.appState.wrongAttempts
        ∨ (runApp_manage c).2.appState.wrongAttempts = 0) := by
  obtain ⟨h1, h2, h3, h4, h5⟩ := h
  rw [runApp_manage_eq]
  have hx := manageState_inv (decide (c.appState.appState ≠ c.stateChanged_previousState))
    { c with
      stateChanged_previousState := c.appState.appState
      appState := { c.appState with redrawRequired := false } }
    ⟨h1, h2, h3, fun hw => Or.inl hw, h5⟩ rfl
    (by
      intro hnew hw
      have hne : c.appState.appState ≠ c.stateChanged_previousState := by simpa using hnew
      rcases h4 hw with hp | hr | hl
      · exact absurd (hw.trans hp.symm) hne
      · exact Or.inl hr
      · exact Or.inr hl)
  obtain ⟨x1, x2, x3, x4, x5, x6, x7⟩ := hx
  have hst := manageState_appState (decide (c.appState.appState ≠ c.stateChanged_previousState))
    { c with
      stateChanged_previousState := c.appState.appState
      appState := { c.appState with redrawRequired := false } }
  refine ⟨⟨x1, ?_, ?_⟩, ?_, hst, x3.trans hf, x4, x6, x7⟩
  · intro hi
    rw [x5]
    exact hk (hst.symm.trans hi)
  · intro hfr
    rw [x3] at hfr
    exact absurd (hfr.symm.trans hf) (by decide)
  · rw [x2, hst]

/-- One tick preserves the invariant. -/
theorem runApp_TickInv (gpio : Option GPIO_Value_Type) (keyRead : Option Char) (m : Machine)
    (h : TickInv m) : TickInv (runApp gpio keyRead m).2 ∧ (runApp gpio keyRead m).2.fstRun = false := by
  obtain ⟨e1, e2, e3, -, -⟩ := runApp_events_inv gpio m h
  unfold runApp
  rcases keyRead with _ | key
  · exact ⟨⟨e1, fun hb => absurd hb e3, fun hf => absurd (hf.symm.trans e2) (by decide)⟩, e2⟩
  · obtain ⟨k1, k2, k3⟩ := runApp_key_inv key _ e1 e3
    obtain ⟨r1, -, -, r4, -⟩ := runApp_manage_inv _ k1 (k2.trans e2) k3
    exact ⟨r1, r4⟩

/-- Every machine reached from the initial one by ticks satisfies the invariant. -/
theorem runTicks_TickInv (inputs : List TickInput) : TickInv (runTicks inputs initial) := by
  suffices h : ∀ m, TickInv m → TickInv (runTicks inputs m) from h _ initial_TickInv
  induction inputs with
  | nil => intro m hm; exact hm
  | cons i is ih =>
    intro m hm
    rw [runTicks_cons]
    exact ih _ (runApp_TickInv i.1 i.2 m hm).1

/-- After at least one tick the session record is initialised. -/
theorem runTicks_fstRun (inputs : List TickInput) (h : inputs ≠ []) :
    (runTicks inputs initial).fstRun = false := by
  obtain ⟨init, last, rfl⟩ : ∃ a b, inputs = a ++ [b] :=
    ⟨inputs.dropLast, inputs.getLast h, (List.dropLast_append_getLast h).symm⟩
  rw [runTicks_append, runTicks_cons, runTicks_nil]
  exact (runApp_TickInv last.1 last.2 _ (runTicks_TickInv init)).2

/-! ## The attempt counter -/

/-- C5: after any sequence of ticks, whatever the sensor and key reads deliver,
`wrongAttempts` is at most 3, and so it is between the two actions of any further tick.
A tick shows `INVALID_CREDENTIALS` after its key handling only if that key handling counted
a wrong confirm, and then the counter stood at 2 or less before and is one more after: runs
that go back to the menu and enter code entry again in between are runs like any other. -/
theorem C5_wrongAttempts_at_most_3 (inputs : List TickInput)
    (gpio : Option GPIO_Value_Type) (key : Char) :
    (runTicks inputs initial).appState.wrongAttempts ≤ 3
    ∧ (runApp_events gpio (runTicks inputs initial)).appState.wrongAttempts ≤ 3
    ∧ (runApp_events gpio (runTicks inputs initial)).appState.appState
        ≠ appStateEnum.INVALID_CREDENTIALS
    ∧ ((runApp_key key (runApp_events gpio (runTicks inputs initial))).appState.appState
          = appStateEnum.INVALID_CREDENTIALS →
        key = '#'
        ∧ (runApp_events gpio (runTicks inputs initial)).appState.wrongAttempts ≤ 2
        ∧ (runApp_key key (runApp_events gpio (runTicks inputs initial))).appState.wrongAttempts
          = (runApp_events gpio (runTicks inputs initial)).appState.wrongAttempts + 1) := by
  have hm := runTicks_TickInv inputs
  obtain ⟨e1, -, e3, -, -⟩ := runApp_events_inv gpio _ hm
  refine ⟨hm.1.1, e1.1, e3, ?_⟩
  intro hc
  rcases runApp_key_cases key (runApp_events gpio (runTicks inputs initial)) with
    ⟨hk, hp, -⟩ | ⟨-, kp, hkp⟩
  · obtain ⟨hmv, -⟩ := runApp_key_handled key _ hk hp
    cases hmv with
    | stay _ h1 => exact absurd (h1.symm.trans hc) e3
    | reject h0 hk2 _ _ hw =>
      have hw2 : (runApp_events gpio (runTicks inputs initial)).appState.wrongAttempts ≤ 2 := by
        rcases h0 with h0 | h0 <;> exact e1.2.1 (by simp [h0]) (by simp [h0])
      refine ⟨hk2, hw2, ?_⟩
      rw [hw]
      exact Nat.mod_eq_of_lt (by omega)
    | _ => simp_all
  · rw [hkp] at hc
    exact absurd hc e3

/-- C5 on the run `beforeThirdStrike`: the counter is 2, and the confirm key of the next
tick takes it to 3 on the "Invalid code" screen. -/
theorem C5_wrongAttempts_at_most_3_witness :
    (runApp_events (some LOCK_CLOSED) (runTicks beforeThirdStrike initial)
        ).appState.wrongAttempts ≤ 2
    ∧ (runApp_key '#' (runApp_events (some LOCK_CLOSED) (runTicks beforeThirdStrike initial))
        ).appState.wrongAttempts
      = (runApp_events (some LOCK_CLOSED) (runTicks beforeThirdStrike initial)
        ).appState.wrongAttempts + 1 :=
  ((C5_wrongAttempts_at_most_3 beforeThirdStrike (some LOCK_CLOSED) '#').2.2.2
    (by decide)).2

/-! ## The committed code and the occupancy flag -/

/-- C6, as stated, fails on the run `retrieveRun`: after the retrieval the compartment is
empty and `savedCode` still holds `123456`. -/
theorem C6_counterexample :
    ¬ (cstr (runTicks retrieveRun initial).savedCode ≠ []
        ↔ (runTicks retrieveRun initial).appState.isEmpty = false) := by
  decide

/-- C6, amended: at the end of every tick of every run, an occupied compartment
(`isEmpty = false`) has a complete, hence non-empty, `savedCode`. The converse is left out:
no statement of the program ever empties `savedCode`. -/
theorem C6_occupied_has_code (inputs : List TickInput) (h : inputs ≠ [])
    (hocc : (runTicks inputs initial).appState.isEmpty = false) :
    strlen (runTicks inputs initial).savedCode = 6
    ∧ cstr (runTicks inputs initial).savedCode ≠ [] := by
  have hm := runTicks_TickInv inputs
  have hlen := hm.1.2.2.2.2 (runTicks_fstRun inputs h) hocc
  refine ⟨hlen, fun hc => ?_⟩
  rw [strlen_eq_length_cstr, hc] at hlen
  cases hlen

/-- C6, amended, on the run that stores `123456`. -/
theorem C6_occupied_has_code_witness :
    strlen (runTicks (storeTicks ['1', '2', '3', '4', '5', '6']) initial).savedCode = 6
    ∧ cstr (runTicks (storeTicks ['1', '2', '3', '4', '5', '6']) initial).savedCode ≠ [] :=
  C6_occupied_has_code (storeTicks ['1', '2', '3', '4', '5', '6']) (by decide) (by decide)

/-! ## Three wrong attempts -/

/-- C7, as stated, fails on the run `thirdStrike`: the tick of the third wrong confirm ends
on the "Invalid code" screen with `wrongAttempts = 3`. -/
theorem C7_counterexample :
    ¬ ((runTicks thirdStrike initial).appState.wrongAttempts ≥ 3 →
        (runTicks thirdStrike initial).appState.appState = appStateEnum.DRAWER_LOCKED) := by
  decide

/-- C7, amended: at the end of every tick of every run, `wrongAttempts >= 3` implies that
the state is `INVALID_CREDENTIALS` or `DRAWER_LOCKED` (and the counter is exactly 3). -/
theorem C7_three_attempts_state (inputs : List TickInput)
    (hw : (runTicks inputs initial).appState.wrongAttempts ≥ 3) :
    ((runTicks inputs initial).appState.appState = appStateEnum.INVALID_CREDENTIALS
      ∨ (runTicks inputs initial).appState.appState = appStateEnum.DRAWER_LOCKED)
    ∧ (runTicks inputs initial).appState.wrongAttempts = 3 := by
  have hm := runTicks_TickInv inputs
  obtain ⟨h1, h2, -⟩ := hm.1
  refine ⟨?_, by omega⟩
  by_contra hne
  have := h2 (fun h => hne (Or.inl h)) (fun h => hne (Or.inr h))
  omega

/-- C7, amended, on the runs `thirdStrike` and `lockedOut`: first the one state, then the
other. -/
theorem C7_three_attempts_state_witness :
    (runTicks thirdStrike initial).appState.appState = appStateEnum.INVALID_CREDENTIALS
    ∧ (runTicks lockedOut initial).appState.appState = appStateEnum.DRAWER_LOCKED
    ∧ (runTicks lockedOut initial).appState.wrongAttempts = 3 :=
  have h1 := C7_three_attempts_state thirdStrike (by decide)
  have h2 := C7_three_attempts_state lockedOut (by decide)
  ⟨h1.1.resolve_right (by decide), h2.1.resolve_left (by decide), h2.2⟩

/-! ## Leaving the lockout screen -/

theorem runApp_none (gpio : Option GPIO_Value_Type) (m : Machine) :
    runApp gpio none m = (-1, runApp_events gpio m) := rfl

theorem runApp_some (gpio : Option GPIO_Value_Type) (key : Char) (m : Machine) :
    runApp gpio (some key) m = runApp_manage (runApp_key key (runApp_events gpio m)) := rfl


theorem doAction_menu_in_SELECT (m : Machine)
    (h : m.appState.appState = appStateEnum.SELECT) :
    (doAction 'A' m).2.appState.appState = appStateEnum.CODE := by
  have ha : (doAction_alert 'A' m) = m := by
    unfold doAction_alert
    rw [if_neg (fun hc => absurd hc.1 (by decide))]
  have hk : keyToAction 'A' = actionEnum.NEXT_SCREEN := by decide
  simp [doAction, ha, hk, nextScreen, h]

/-- C8, as stated, fails on the run `lockedOut` when the menu key is down in the next tick:
the tick starts in `DRAWER_LOCKED` and ends in `CODE`, the key press having been handled
after the forced advance. -/
theorem C8_counterexample :
    (runTicks lockedOut initial).appState.appState = appStateEnum.DRAWER_LOCKED
    ∧ (runApp (some LOCK_CLOSED) (some 'A') (runTicks lockedOut initial)).2.appState.appState
        = appStateEnum.CODE
    ∧ (runApp (some LOCK_CLOSED) (some 'A') (runTicks lockedOut initial)).2.appState.appState
        ≠ appStateEnum.SELECT := by
  decide

/-- C8, amended: for a run that ends in `DRAWER_LOCKED` and any sensor and key read of the
next tick, the forced advance of that tick leads to `SELECT` with `wrongAttempts = 0`; the
tick ends with `wrongAttempts = 0` in `SELECT` or in `CODE`, and in `CODE` exactly when its
key read delivers the menu key `'A'` as a fresh press, which is handled after the forced
advance. -/
theorem C8_after_lockout (inputs : List TickInput) (gpio : Option GPIO_Value_Type)
    (keyRead : Option Char)
    (hst : (runTicks inputs initial).appState.appState = appStateEnum.DRAWER_LOCKED) :
    (runApp_events gpio (runTicks inputs initial)).appState.appState = appStateEnum.SELECT
    ∧ (runApp_events gpio (runTicks inputs initial)).appState.wrongAttempts = 0
    ∧ (runApp gpio keyRead (runTicks inputs initial)).2.appState.wrongAttempts = 0
    ∧ ((runApp gpio keyRead (runTicks inputs initial)).2.appState.appState
          = appStateEnum.SELECT
        ∨ (runApp gpio keyRead (runTicks inputs initial)).2.appState.appState
          = appStateEnum.CODE)
    ∧ ((runApp gpio keyRead (runTicks inputs initial)).2.appState.appState
          = appStateEnum.CODE
        ↔ keyRead = some 'A'
          ∧ (runTicks inputs initial).appState.isKeyPressed = false) := by
  have hm := runTicks_TickInv inputs
  generalize runTicks inputs initial = m at hm hst ⊢
  have hf : m.fstRun = false := by
    cases hfr : m.fstRun
    · rfl
    · have := (hm.2.2 hfr).1
      rw [hst] at this
      cases this
  obtain ⟨l, lp, hp⟩ := runApp_poll_later gpio m hf
  have hps : (runApp_poll gpio m).2.appState.appState = appStateEnum.DRAWER_LOCKED := by
    rw [hp]; exact hst
  have hpk : (runApp_poll gpio m).2.appState.isKeyPressed = m.appState.isKeyPressed := by
    rw [hp]
  obtain ⟨e1, e2, e3, -, -⟩ := runApp_events_inv gpio m hm
  obtain ⟨hmv, hfr⟩ := runApp_events_moves gpio m
  have hbang : keyToAction '!' = actionEnum.NEXT_SCREEN := by decide
  have hb : (runApp_events gpio m).appState.appState = appStateEnum.SELECT
      ∧ (runApp_events gpio m).appState.wrongAttempts = 0 := by
    cases hmv with
    | stay hn => exact absurd hps (hn hbang).2
    | unlocked _ _ h1 hw => exact ⟨h1, hw⟩
    | _ => simp_all
  have hbk : (runApp_events gpio m).appState.isKeyPressed = m.appState.isKeyPressed :=
    hfr.2.2.1.trans hpk
  have hbc : strlen (runApp_events gpio m).secretCode = 0 :=
    e1.2.2.1 (by simp [hb.1]) (by simp [hb.1]) (by simp [hb.1])
  refine ⟨hb.1, hb.2, ?_⟩
  rcases keyRead with _ | key
  · rw [runApp_none]
    refine ⟨hb.2, Or.inl hb.1, ?_⟩
    constructor
    · intro hc
      rw [hb.1] at hc
      cases hc
    · intro hc
      cases hc.1
  · rw [runApp_some]
    have hkey : (runApp_key key (runApp_events gpio m)).appState.wrongAttempts = 0
        ∧ ((runApp_key key (runApp_events gpio m)).appState.appState = appStateEnum.SELECT
          ∨ (runApp_key key (runApp_events gpio m)).appState.appState = appStateEnum.CODE)
        ∧ ((runApp_key key (runApp_events gpio m)).appState.appState = appStateEnum.CODE
          ↔ key = 'A' ∧ m.appState.isKeyPressed = false) := by
      rcases runApp_key_cases key (runApp_events gpio m) with ⟨hk, hp, hc⟩ | ⟨hk, kp, hc⟩
      · obtain ⟨hmv2, -⟩ := runApp_key_handled key _ hk hp
        have hiff : key = 'A' →
            (runApp_key key (runApp_events gpio m)).appState.appState = appStateEnum.CODE := by
          intro hA
          rw [hc, hA]
          exact doAction_menu_in_SELECT _ hb.1
        cases hmv2 with
        | stay _ h1 hw =>
          refine ⟨hw.trans hb.2, Or.inl (h1.trans hb.1), ?_⟩
          constructor
          · intro hcode
            rw [h1, hb.1] at hcode
            cases hcode
          · intro hA
            have := hiff hA.1
            rw [h1, hb.1] at this
            cases this
        | menu _ hA h1 hw =>
          exact ⟨hw.trans hb.2, Or.inr h1, fun _ => ⟨hA, hbk.symm.trans hp⟩, fun _ => h1⟩
        | reject _ _ hlen => rw [hbc] at hlen; cases hlen
        | accept _ _ hlen => rw [hbc] at hlen; cases hlen
        | _ => simp_all
      · rw [hc]
        refine ⟨hb.2, Or.inl hb.1, ?_⟩
        constructor
        · intro hcode
          have : (runApp_events gpio m).appState.appState = appStateEnum.CODE := hcode
          rw [hb.1] at this
          cases this
        · intro hA
          rcases hk with hk | hk
          · rw [hA.1] at hk
            exact absurd hk (by decide)
          · rw [hbk, hA.2] at hk
            cases hk
    obtain ⟨k1, k2, k3⟩ := runApp_key_inv key _ e1 e3
    obtain ⟨-, -, r3, -, -, r6, -⟩ := runApp_manage_inv _ k1 (k2.trans e2) k3
    have hnw : (runApp_key key (runApp_events gpio m)).appState.appState ≠ appStateEnum.WAIT := by
      rcases hkey.2.1 with h | h <;> simp [h]
    rw [r3, r6 hnw]
    refine ⟨hkey.1, hkey.2.1, ?_⟩
    rw [hkey.2.2]
    constructor
    · intro h
      exact ⟨by rw [h.1], h.2⟩
    · intro h
      exact ⟨by injection h.1, h.2⟩

/-- C8, amended, on the run `lockedOut`: with no key down the next tick ends in `SELECT`, and
the attempt counter is back at 0. -/
theorem C8_after_lockout_witness :
    (runApp_events (some LOCK_CLOSED) (runTicks lockedOut initial)).appState.appState
        = appStateEnum.SELECT
    ∧ (runApp (some LOCK_CLOSED) (some NUL) (runTicks lockedOut initial)).2.appState.wrongAttempts
        = 0 :=
  have h := C8_after_lockout lockedOut (some LOCK_CLOSED) (some NUL) (by decide)
  ⟨h.1, h.2.2.1⟩

/-! ## The timed states within a tick -/

theorem runApp_poll_frame (gpio : Option GPIO_Value_Type) (m : Machine) :
    (runApp_poll gpio m).2.stateChanged_previousState = m.stateChanged_previousState
    ∧ ((runApp_poll gpio m).2.appState.appState = appStateEnum.WAIT →
        m.appState.appState = appStateEnum.WAIT) := by
  cases hf : m.fstRun
  · obtain ⟨l, lp, hp⟩ := runApp_poll_later gpio m hf
    rw [hp]
    exact ⟨rfl, fun h => h⟩
  · obtain ⟨lp, hp⟩ := runApp_poll_first gpio m hf
    rw [hp]
    exact ⟨rfl, fun h => (by cases h)⟩

theorem runApp_key_frame (key : Char) (b : Machine) :
    (runApp_key key b).stateChanged_previousState = b.stateChanged_previousState
    ∧ (runApp_key key b).savedCode = b.savedCode
    ∧ (runApp_key key b).appState.isEmpty = b.appState.isEmpty := by
  rcases runApp_key_cases key b with ⟨hk, hp, -⟩ | ⟨-, kp, hc⟩
  · obtain ⟨-, -, -, h4, h5, h6⟩ := runApp_key_handled key b hk hp
    exact ⟨h6, h4, h5⟩
  · rw [hc]
    exact ⟨rfl, rfl, rfl⟩

/-- The delay of the two lockout screens, in a tick that reaches `manageState`. -/
theorem runApp_manage_delay (c : Machine) :
    (c.appState.appState = appStateEnum.INVALID_CREDENTIALS →
      (runApp_manage c).2.trace = c.trace ++ [Event.nanosleep 3])
    ∧ (c.appState.appState = appStateEnum.DRAWER_LOCKED →
      (runApp_manage c).2.trace = c.trace ++ [Event.nanosleep 60]) := by
  rw [runApp_manage_eq]
  constructor <;> intro h <;> simp [manageState, h]

/-- The unlock sequence, in a tick that reaches `manageState` in a `WAIT` that
`stateChanged` reports as new. -/
theorem runApp_manage_unlock (c : Machine)
    (hst : c.appState.appState = appStateEnum.WAIT)
    (hnew : c.stateChanged_previousState ≠ appStateEnum.WAIT)
    (hv : c.appState.isReopen = true ∨ c.appState.isEmpty = true
      ∨ (strlen c.secretCode = 6 ∧ strcmp c.secretCode c.savedCode = 0)) :
    ∃ msg, (runApp_manage c).2.trace
      = c.trace ++ [Event.unlock, Event.SendTelemetry "LockOpened" msg] := by
  rw [runApp_manage_eq]
  have hd : decide (c.appState.appState ≠ c.stateChanged_previousState) = true := by
    rw [hst]
    exact decide_eq_true (fun h => hnew h.symm)
  rw [hd]
  by_cases h1 : c.appState.isReopen = true
  · exact ⟨"Lock reopened.", by simp [manageState, hst, h1]⟩
  · by_cases h2 : c.appState.isEmpty = true
    · exact ⟨"Lock opened to store item.", by simp [manageState, hst, h1, h2, saveSecretCode]⟩
    · rcases hv with hv | hv | ⟨hv1, hv2⟩
      · exact absurd hv h1
      · exact absurd hv h2
      · exact ⟨"Lock reopened to pick up item",
          by simp [manageState, hst, h1, h2, isValidCodeValue, isValidCode, hv1, hv2]⟩

/-- Without a failed key read every tick reaches `stateChanged`, whose static then holds the
state in which the tick ended. -/
theorem runTicks_previousState (inputs : List TickInput) (h : ∀ i ∈ inputs, i.2 ≠ none) :
    (runTicks inputs initial).stateChanged_previousState
      = (runTicks inputs initial).appState.appState := by
  rcases List.eq_nil_or_concat inputs with rfl | ⟨init, last, rfl⟩
  · rfl
  · rw [List.concat_eq_append] at h ⊢
    rw [runTicks_append, runTicks_cons, runTicks_nil]
    have hm := runTicks_TickInv init
    obtain ⟨gpio, keyRead⟩ := last
    rcases keyRead with _ | key
    · exact absurd rfl (h (gpio, none) (by simp))
    · obtain ⟨e1, e2, e3, -, -⟩ := runApp_events_inv gpio _ hm
      obtain ⟨k1, k2, k3⟩ := runApp_key_inv key _ e1 e3
      obtain ⟨-, r2, -⟩ := runApp_manage_inv _ k1 (k2.trans e2) k3
      exact r2

/-- C9 does not hold of the code, on the run `lockedOutAborted` followed by one more tick.
The run `thirdStrike` ends in `INVALID_CREDENTIALS` after the third wrong code. The next tick,
with the sensor closed and a failing `checkForKeyPress`, enters `DRAWER_LOCKED` by the forced
advance and returns before `stateChanged` and `manageState`; the tick after it leaves
`DRAWER_LOCKED` for `SELECT` with `wrongAttempts` back at `0`, and no 60 second delay has run
at any time. On the run `lockedOut`, where the key read of that tick succeeds, the same tick
ends with the 60 second delay. -/
theorem C9_lockout_delay_skipped :
    (runTicks thirdStrike initial).appState.appState = appStateEnum.INVALID_CREDENTIALS
    ∧ (runTicks lockedOutAborted initial).appState.appState = appStateEnum.DRAWER_LOCKED
    ∧ (runTicks (lockedOutAborted ++ [closedTick NUL]) initial).appState.appState
        = appStateEnum.SELECT
    ∧ Event.nanosleep 60 ∉ (runTicks (lockedOutAborted ++ [closedTick NUL]) initial).trace
    ∧ (runTicks (lockedOutAborted ++ [closedTick NUL]) initial).appState.wrongAttempts = 0
    ∧ (runTicks lockedOut initial).appState.appState = appStateEnum.DRAWER_LOCKED
    ∧ (runTicks lockedOut initial).trace
        = (runTicks thirdStrike initial).trace ++ [Event.nanosleep 60] := by
  decide

/-- The timed states within one tick. Let `X` be one of `INVALID_CREDENTIALS`,
`DRAWER_LOCKED`, `WAIT`, and take any run and any sensor and key read for one more tick.
(1) If the forced advance of the tick enters `X`, or its key handling ends in `X`, the tick
ends in `X`: nothing handled in the tick leaves a timed state entered in it.
(2) If the key read succeeds, a tick that ends in `INVALID_CREDENTIALS` ends with the 3 second
delay and one that ends in `DRAWER_LOCKED` with the 60 second delay.
(3) If the key read succeeds and `stateChanged` remembers the state the tick started in, a
tick that starts outside `WAIT` and ends in it ends with the unlock sequence.
(4) `stateChanged` remembers that state whenever no key read of the run failed.
A tick whose key read fails returns before `manageState`: (2) and (3) say nothing of it. -/
theorem timed_state_kept (inputs : List TickInput) (gpio : Option GPIO_Value_Type)
    (keyRead : Option Char) (X : appStateEnum)
    (hX : X = appStateEnum.INVALID_CREDENTIALS ∨ X = appStateEnum.DRAWER_LOCKED
      ∨ X = appStateEnum.WAIT) :
    ((runApp_poll gpio (runTicks inputs initial)).2.appState.appState ≠ X →
        (runApp_events gpio (runTicks inputs initial)).appState.appState = X →
        (runApp gpio keyRead (runTicks inputs initial)).2.appState.appState = X)
    ∧ (∀ key, keyRead = some key →
        (runApp_key key (runApp_events gpio (runTicks inputs initial))).appState.appState = X →
        (runApp gpio keyRead (runTicks inputs initial)).2.appState.appState = X)
    ∧ (∀ key, keyRead = some key →
        ((runApp gpio keyRead (runTicks inputs initial)).2.appState.appState
            = appStateEnum.INVALID_CREDENTIALS →
          (runApp gpio keyRead (runTicks inputs initial)).2.trace
            = (runApp_key key (runApp_events gpio (runTicks inputs initial))).trace
              ++ [Event.nanosleep 3])
        ∧ ((runApp gpio keyRead (runTicks inputs initial)).2.appState.appState
            = appStateEnum.DRAWER_LOCKED →
          (runApp gpio keyRead (runTicks inputs initial)).2.trace
            = (runApp_key key (runApp_events gpio (runTicks inputs initial))).trace
              ++ [Event.nanosleep 60]))
    ∧ (∀ key, keyRead = some key →
        (runTicks inputs initial).stateChanged_previousState
          = (runTicks inputs initial).appState.appState →
        (runTicks inputs initial).appState.appState ≠ appStateEnum.WAIT →
        (runApp gpio keyRead (runTicks inputs initial)).2.appState.appState
          = appStateEnum.WAIT →
        ∃ msg, (runApp gpio keyRead (runTicks inputs initial)).2.trace
          = (runApp_key key (runApp_events gpio (runTicks inputs initial))).trace
            ++ [Event.unlock, Event.SendTelemetry "LockOpened" msg])
    ∧ ((∀ i ∈ inputs, i.2 ≠ none) →
        (runTicks inputs initial).stateChanged_previousState
          = (runTicks inputs initial).appState.appState) := by
  have hm := runTicks_TickInv inputs
  refine ⟨?_, ?_, ?_, ?_, runTicks_previousState inputs⟩
  all_goals generalize runTicks inputs initial = m at hm
  · -- entered by the forced advance
    intro hp hb
    obtain ⟨e1, e2, e3, e4, e5⟩ := runApp_events_inv gpio m hm
    have hXD : X = appStateEnum.DRAWER_LOCKED := by
      rcases hX with h | h | h
      · rw [h] at hb; exact absurd hb e3
      · exact h
      · rw [h] at hb hp; exact absurd (e5 hb) hp
    rw [hXD] at hb ⊢
    rcases keyRead with _ | key
    · rw [runApp_none]; exact hb
    · rw [runApp_some]
      obtain ⟨k1, k2, k3⟩ := runApp_key_inv key _ e1 e3
      obtain ⟨-, -, r3, -⟩ := runApp_manage_inv _ k1 (k2.trans e2) k3
      rw [r3]
      rcases runApp_key_cases key (runApp_events gpio m) with ⟨_, hkp, -⟩ | ⟨-, kp, hc⟩
      · rw [(e4 hb).1] at hkp; cases hkp
      · rw [hc]; exact hb
  · -- entered by the key handling
    intro key hk hc
    subst hk
    obtain ⟨e1, e2, e3, -, -⟩ := runApp_events_inv gpio m hm
    obtain ⟨k1, k2, k3⟩ := runApp_key_inv key _ e1 e3
    obtain ⟨-, -, r3, -⟩ := runApp_manage_inv _ k1 (k2.trans e2) k3
    rw [runApp_some, r3]
    exact hc
  · -- the delays
    intro key hk
    subst hk
    obtain ⟨e1, e2, e3, -, -⟩ := runApp_events_inv gpio m hm
    obtain ⟨k1, k2, k3⟩ := runApp_key_inv key _ e1 e3
    obtain ⟨-, -, r3, -⟩ := runApp_manage_inv _ k1 (k2.trans e2) k3
    obtain ⟨d1, d2⟩ := runApp_manage_delay (runApp_key key (runApp_events gpio m))
    rw [runApp_some, r3]
    exact ⟨d1, d2⟩
  · -- the unlock sequence
    intro key hk hsync hnw hw
    subst hk
    obtain ⟨e1, e2, e3, -, e5⟩ := runApp_events_inv gpio m hm
    obtain ⟨-, efr⟩ := runApp_events_moves gpio m
    obtain ⟨k1, k2, k3⟩ := runApp_key_inv key _ e1 e3
    obtain ⟨-, -, r3, -⟩ := runApp_manage_inv _ k1 (k2.trans e2) k3
    obtain ⟨p1, p2⟩ := runApp_poll_frame gpio m
    obtain ⟨f1, f2, f3⟩ := runApp_key_frame key (runApp_events gpio m)
    rw [runApp_some] at hw ⊢
    rw [r3] at hw
    have hbw : (runApp_events gpio m).appState.appState ≠ appStateEnum.WAIT :=
      fun h => hnw (p2 (e5 h))
    have hprev : (runApp_key key (runApp_events gpio m)).stateChanged_previousState
        ≠ appStateEnum.WAIT := by
      rw [f1, efr.2.2.2.2.1, p1, hsync]
      exact hnw
    apply runApp_manage_unlock _ hw hprev
    rcases runApp_key_cases key (runApp_events gpio m) with ⟨hk, hkp, -⟩ | ⟨-, kp, hc⟩
    · obtain ⟨hmv, -⟩ := runApp_key_handled key _ hk hkp
      cases hmv with
      | stay _ h1 => exact absurd (h1.symm.trans hw) hbw
      | accept _ _ hlen hv _ _ hr hc =>
        rcases hv with hv | hv
        · exact Or.inr (Or.inl (f3.trans hv))
        · exact Or.inr (Or.inr ⟨by rw [hc]; exact hlen, by rw [hc, f2]; exact hv⟩)
      | reopen _ _ _ _ hr => exact Or.inl hr
      | _ => simp_all
    · rw [hc] at hw
      exact absurd hw hbw

/-- The lemma `timed_state_kept` for `DRAWER_LOCKED` on the run `thirdStrike`: the tick whose forced advance
enters the lockout screen ends there even if a key is reported down. -/
theorem timed_state_kept_example :
    (runApp (some LOCK_CLOSED) (some 'A') (runTicks thirdStrike initial)).2.appState.appState
      = appStateEnum.DRAWER_LOCKED :=
  (timed_state_kept thirdStrike (some LOCK_CLOSED) (some 'A') appStateEnum.DRAWER_LOCKED
    (Or.inr (Or.inl rfl))).1 (by decide) (by decide)

/-! ## When the pending code is cleared -/

/-- C10, as stated, fails on the run `beforeConfirm` followed by the confirm key: the key
handling goes from `CODE` to `WAIT` and the pending code is still `123456`. -/
theorem C10_counterexample :
    (runApp_events (some LOCK_CLOSED) (runTicks beforeConfirm initial)).appState.appState
        = appStateEnum.CODE
    ∧ (runApp_key '#' (runApp_events (some LOCK_CLOSED) (runTicks beforeConfirm initial))
        ).appState.appState = appStateEnum.WAIT
    ∧ (runApp_key '#' (runApp_events (some LOCK_CLOSED) (runTicks beforeConfirm initial))
        ).secretCode = ['1', '2', '3', '4', '5', '6', NUL]
    ∧ strlen (runApp_key '#' (runApp_events (some LOCK_CLOSED) (runTicks beforeConfirm initial))
        ).secretCode ≠ 0 := by
  decide

/-- C10, amended: in every tick after every run, for both actions of the tick (the forced
advance, which takes the machine from the state after the poll to the state before the key
handling, and the key handling):
(1) an action that enters `CODE` leaves the pending code empty;
(2) the forced advance never leaves `CODE`, and key handling that goes from `CODE` to
`SELECT` was the back key `'*'` and leaves the pending code empty;
(3) key handling that goes from `CODE` to `WAIT` was the confirm key `'#'` and leaves the
complete pending code of 6 characters in place;
(4) the pending code is empty after an action that goes from `WAIT` to `OPEN`. -/
theorem C10_pending_code_cleared (inputs : List TickInput) (gpio : Option GPIO_Value_Type)
    (key : Char) :
    ((runApp_poll gpio (runTicks inputs initial)).2.appState.appState ≠ appStateEnum.CODE →
        (runApp_events gpio (runTicks inputs initial)).appState.appState = appStateEnum.CODE →
        strlen (runApp_events gpio (runTicks inputs initial)).secretCode = 0)
    ∧ ((runApp_events gpio (runTicks inputs initial)).appState.appState ≠ appStateEnum.CODE →
        (runApp_key key (runApp_events gpio (runTicks inputs initial))).appState.appState
          = appStateEnum.CODE →
        strlen (runApp_key key (runApp_events gpio (runTicks inputs initial))).secretCode = 0)
    ∧ ((runApp_poll gpio (runTicks inputs initial)).2.appState.appState = appStateEnum.CODE →
        (runApp_events gpio (runTicks inputs initial)).appState.appState = appStateEnum.CODE)
    ∧ ((runApp_events gpio (runTicks inputs initial)).appState.appState = appStateEnum.CODE →
        (runApp_key key (runApp_events gpio (runTicks inputs initial))).appState.appState
          = appStateEnum.SELECT →
        key = '*'
        ∧ strlen (runApp_key key (runApp_events gpio (runTicks inputs initial))).secretCode = 0)
    ∧ ((runApp_events gpio (runTicks inputs initial)).appState.appState = appStateEnum.CODE →
        (runApp_key key (runApp_events gpio (runTicks inputs initial))).appState.appState
          = appStateEnum.WAIT →
        key = '#'
        ∧ (runApp_key key (runApp_events gpio (runTicks inputs initial))).secretCode
          = (runApp_events gpio (runTicks inputs initial)).secretCode
        ∧ strlen (runApp_key key (runApp_events gpio (runTicks inputs initial))).secretCode = 6)
    ∧ ((runApp_poll gpio (runTicks inputs initial)).2.appState.appState = appStateEnum.WAIT →
        (runApp_events gpio (runTicks inputs initial)).appState.appState = appStateEnum.OPEN →
        strlen (runApp_events gpio (runTicks inputs initial)).secretCode = 0)
    ∧ ((runApp_events gpio (runTicks inputs initial)).appState.appState = appStateEnum.WAIT →
        (runApp_key key (runApp_events gpio (runTicks inputs initial))).appState.appState
          = appStateEnum.OPEN →
        strlen (runApp_key key (runApp_events gpio (runTicks inputs initial))).secretCode = 0) := by
  have hm := runTicks_TickInv inputs
  generalize runTicks inputs initial = m at hm
  obtain ⟨p1, -, -⟩ := runApp_poll_inv gpio m hm
  obtain ⟨e1, -, e3, -, -⟩ := runApp_events_inv gpio m hm
  obtain ⟨emv, -⟩ := runApp_events_moves gpio m
  have hbang : keyToAction '!' = actionEnum.NEXT_SCREEN := by decide
  -- what a move says about the pending code, for a machine `x` that satisfies the invariant
  have enter : ∀ (k : Char) (x y : Machine), ActionInv x → Moves k x y →
      x.appState.appState ≠ appStateEnum.CODE → y.appState.appState = appStateEnum.CODE →
      strlen y.secretCode = 0 := by
    intro k x y hx hmv hne hy
    cases hmv with
    | stay _ h1 => exact absurd (h1.symm.trans hy) hne
    | menu h0 _ _ _ _ hc =>
      rw [hc]
      exact hx.2.2.1 (by simp [h0]) (by simp [h0]) (by simp [h0])
    | retry _ _ _ _ _ _ hc => exact hc
    | _ => simp_all
  have opened : ∀ (k : Char) (x y : Machine), Moves k x y →
      x.appState.appState = appStateEnum.WAIT → y.appState.appState = appStateEnum.OPEN →
      strlen y.secretCode = 0 := by
    intro k x y hmv hx hy
    cases hmv with
    | stay _ h1 => rw [h1, hx] at hy; cases hy
    | opened _ _ _ _ _ _ hc => exact hc
    | _ => simp_all
  have keyMoves : ∀ s : appStateEnum,
      (runApp_events gpio m).appState.appState ≠ s →
      (runApp_key key (runApp_events gpio m)).appState.appState = s →
      Moves key (runApp_events gpio m) (runApp_key key (runApp_events gpio m)) := by
    intro s hne hs
    rcases runApp_key_cases key (runApp_events gpio m) with ⟨hk, hp, -⟩ | ⟨-, kp, hc⟩
    · exact (runApp_key_handled key _ hk hp).1
    · rw [hc] at hs
      exact absurd hs hne
  refine ⟨enter '!' _ _ p1 emv, ?_, ?_, ?_, ?_, opened '!' _ _ emv, ?_⟩
  · intro hne hc
    exact enter key _ _ e1 (keyMoves _ hne hc) hne hc
  · intro hp
    cases emv with
    | stay _ h1 => exact h1.trans hp
    | reject _ hk => exact absurd hk (by decide)
    | accept _ hk => exact absurd hk (by decide)
    | back _ hk => exact absurd hk (by decide)
    | _ => simp_all
  · intro hb hc
    have hmv := keyMoves appStateEnum.SELECT (by simp [hb]) hc
    cases hmv with
    | stay _ h1 => rw [h1, hb] at hc; cases hc
    | back _ hk _ _ _ hcode => exact ⟨hk, hcode⟩
    | _ => simp_all
  · intro hb hc
    have hmv := keyMoves appStateEnum.WAIT (by simp [hb]) hc
    cases hmv with
    | stay _ h1 => rw [h1, hb] at hc; cases hc
    | accept _ hk hlen _ _ _ _ hcode => exact ⟨hk, hcode, by rw [hcode]; exact hlen⟩
    | _ => simp_all
  · intro hb hc
    exact opened key _ _ (keyMoves appStateEnum.OPEN (by simp [hb]) hc) hb hc

/-- C10, amended, on the run `beforeConfirm`: the confirm key leaves the six characters
where they are. -/
theorem C10_pending_code_cleared_witness :
    strlen (runApp_key '#' (runApp_events (some LOCK_CLOSED) (runTicks beforeConfirm initial))
      ).secretCode = 6 :=
  ((C10_pending_code_cleared beforeConfirm (some LOCK_CLOSED) '#').2.2.2.2.1
    (by decide) (by decide)).2.2

/-! ## Appending to and deleting from the pending code -/

theorem cstr_append_drop (b : List Char) : cstr b ++ b.drop (strlen b) = b := by
  induction b with
  | nil => rfl
  | cons c cs ih =>
    by_cases h : c = NUL
    · simp [cstr, strlen, h]
    · simp [cstr, strlen, h, ih]

theorem NUL_not_mem_cstr (b : List Char) : NUL ∉ cstr b := by
  induction b with
  | nil => simp [cstr]
  | cons c cs ih =>
    by_cases h : c = NUL
    · simp [cstr, h]
    · simp only [cstr, h, if_false, List.mem_cons, not_or]
      exact ⟨fun hc => h hc.symm, ih⟩

/-- A well-formed buffer is the buffer `codeBuffer` of the string it holds. -/
theorem WellFormedCode_iff (b : List Char) :
    WellFormedCode b ↔ ∃ s, b = codeBuffer s ∧ s.length ≤ 6 ∧ NUL ∉ s := by
  constructor
  · rintro ⟨h7, h6, hp⟩
    refine ⟨cstr b, ?_, by rw [← strlen_eq_length_cstr]; exact h6, NUL_not_mem_cstr b⟩
    have hd : b.drop (strlen b) = List.replicate (7 - (cstr b).length) NUL := by
      rw [List.eq_replicate_iff]
      refine ⟨?_, fun c hc => hp c hc⟩
      rw [List.length_drop, h7, strlen_eq_length_cstr]
    calc b = cstr b ++ b.drop (strlen b) := (cstr_append_drop b).symm
      _ = codeBuffer (cstr b) := by rw [hd]; rfl
  · rintro ⟨s, rfl, hlen, hnul⟩
    refine ⟨length_codeBuffer s hlen, by rw [strlen_codeBuffer s hlen hnul]; exact hlen, ?_⟩
    rw [strlen_codeBuffer s hlen hnul]
    intro c hc
    simp only [codeBuffer, List.drop_left'] at hc
    exact (List.mem_replicate.1 hc).2

theorem set_codeBuffer_NUL (s : List Char) (x : Char) (h : s.length < 6) :
    (codeBuffer (s ++ [x])).set s.length NUL = codeBuffer s := by
  rw [codeBuffer_eq s (by omega), codeBuffer_eq (s ++ [x]) (by simp; omega)]
  have : 6 - s.length = (6 - (s ++ [x]).length) + 1 := by simp; omega
  rw [this, List.replicate_succ]
  simp [List.set_append]

/-- What `updateCodeValue` does to a well-formed buffer that holds `s`. -/
theorem updateCodeValue_codeBuffer (c : Char) (m : Machine) (s : List Char)
    (hs : m.secretCode = codeBuffer s) (hlen : s.length ≤ 6) (hnul : NUL ∉ s) :
    updateCodeValue c m
      = if s.length = 6 then (false, m)
        else (true, { m with secretCode := codeBuffer (s ++ [c]) }) := by
  unfold updateCodeValue
  dsimp only
  rw [hs, strlen_codeBuffer s hlen hnul]
  split_ifs with h
  · rfl
  · rw [set_codeBuffer s c (by omega)]

/-- What `removeDigitFromCodeValue` does to a well-formed buffer that holds `s`. -/
theorem removeDigitFromCodeValue_codeBuffer (m : Machine) (s : List Char)
    (hs : m.secretCode = codeBuffer s) (hlen : s.length ≤ 6) (hnul : NUL ∉ s) :
    removeDigitFromCodeValue m
      = if s.length = 0 then (false, m)
        else (true, { m with secretCode := codeBuffer s.dropLast }) := by
  unfold removeDigitFromCodeValue
  dsimp only
  rw [hs, strlen_codeBuffer s hlen hnul]
  split_ifs with h
  · rfl
  · obtain ⟨t, x, rfl⟩ : ∃ t x, s = t ++ [x] :=
      ⟨s.dropLast, s.getLast (by intro h0; simp [h0] at h),
        (List.dropLast_append_getLast _).symm⟩
    have ht : t.length < 6 := by simp at hlen; omega
    simp only [List.length_append, List.length_singleton, Nat.add_sub_cancel,
      List.dropLast_concat]
    rw [set_codeBuffer_NUL t x ht]

/-- Appending a character other than `NUL`, or deleting, keeps the buffer well-formed. -/
theorem applyEdit_wellFormed (e : CodeEdit) (m : Machine)
    (he : ∀ c, e = CodeEdit.append c → c ≠ NUL) (h : WellFormedCode m.secretCode) :
    WellFormedCode (applyEdit e m).secretCode := by
  obtain ⟨s, hs, hlen, hnul⟩ := (WellFormedCode_iff _).1 h
  cases e with
  | append c =>
    have hc : c ≠ NUL := he c rfl
    simp only [applyEdit]
    rw [updateCodeValue_codeBuffer c m s hs hlen hnul]
    split_ifs with h6
    · exact h
    · refine (WellFormedCode_iff _).2 ⟨s ++ [c], rfl, by simp; omega, ?_⟩
      simp only [List.mem_append, List.mem_singleton, not_or]
      exact ⟨hnul, fun hh => hc hh.symm⟩
  | delete =>
    simp only [applyEdit]
    rw [removeDigitFromCodeValue_codeBuffer m s hs hlen hnul]
    split_ifs with h0
    · exact h
    · refine (WellFormedCode_iff _).2 ⟨s.dropLast, rfl, by simp; omega, ?_⟩
      exact fun hm => hnul (List.mem_of_mem_dropLast hm)

theorem applyEdits_wellFormed (es : List CodeEdit) (hes : DigitEdits es) :
    ∀ m : Machine, WellFormedCode m.secretCode →
      WellFormedCode (applyEdits es m).secretCode := by
  induction es with
  | nil => intro m h; exact h
  | cons e es ih =>
    intro m h
    have h1 : WellFormedCode (applyEdit e m).secretCode :=
      applyEdit_wellFormed e m
        (fun c hc => ne_NUL_of_mem_digits (hes c (by simp [hc]))) h
    exact ih (fun c hc => hes c (by simp [hc])) _ h1

/-- C11: let the pending-code buffer be well-formed (7 bytes, a string of 0..6 characters,
`NUL` in every byte behind it) and `d` a digit character.
(1) When the buffer holds 6 characters, `updateCodeValue d` returns `false` and changes
nothing.
(2) Otherwise it returns `true`, changes nothing but the buffer, and the buffer afterwards
is the 7-byte buffer that holds the old string followed by `d`: the string is one longer and
the buffer is well-formed again, so terminated inside its 7 bytes.
(3) Hence after any sequence of appends of digits and of deletes the buffer is well-formed,
and the pending code has at most 6 characters. -/
theorem C11_updateCodeValue (m : Machine) (d : Char) (hd : d ∈ digits)
    (hwf : WellFormedCode m.secretCode) :
    (strlen m.secretCode = 6 → updateCodeValue d m = (false, m))
    ∧ (strlen m.secretCode < 6 →
        updateCodeValue d m
          = (true, { m with secretCode := codeBuffer (cstr m.secretCode ++ [d]) })
        ∧ cstr (updateCodeValue d m).2.secretCode = cstr m.secretCode ++ [d]
        ∧ strlen (updateCodeValue d m).2.secretCode = strlen m.secretCode + 1
        ∧ WellFormedCode (updateCodeValue d m).2.secretCode)
    ∧ (∀ es : List CodeEdit, DigitEdits es →
        WellFormedCode (applyEdits es m).secretCode
        ∧ strlen (applyEdits es m).secretCode ≤ 6) := by
  obtain ⟨s, hs, hlen, hnul⟩ := (WellFormedCode_iff _).1 hwf
  have hstr : strlen m.secretCode = s.length := by rw [hs, strlen_codeBuffer s hlen hnul]
  have hcs : cstr m.secretCode = s := by rw [hs, cstr_codeBuffer s hlen hnul]
  have hup := updateCodeValue_codeBuffer d m s hs hlen hnul
  have hdn : d ≠ NUL := ne_NUL_of_mem_digits hd
  refine ⟨?_, ?_, ?_⟩
  · intro h6
    rw [hup, if_pos (hstr.symm.trans h6)]
  · intro hlt
    have hne : ¬ s.length = 6 := by omega
    have hnul2 : NUL ∉ s ++ [d] := by
      simp only [List.mem_append, List.mem_singleton, not_or]
      exact ⟨hnul, fun hh => hdn hh.symm⟩
    have hlen2 : (s ++ [d]).length ≤ 6 := by simp; omega
    rw [hup, if_neg hne, hcs]
    refine ⟨rfl, ?_, ?_, ?_⟩
    · exact cstr_codeBuffer _ hlen2 hnul2
    · show strlen (codeBuffer (s ++ [d])) = strlen m.secretCode + 1
      rw [strlen_codeBuffer _ hlen2 hnul2, hstr]
      simp
    · exact (WellFormedCode_iff _).2 ⟨s ++ [d], rfl, hlen2, hnul2⟩
  · intro es hes
    have h := applyEdits_wellFormed es hes m hwf
    exact ⟨h, h.2.1⟩

/-- C11 on the empty buffer of `exampleReady` and the digit `7`. -/
theorem C11_updateCodeValue_witness :
    updateCodeValue '7' exampleReady
      = (true, { exampleReady with secretCode := ['7', NUL, NUL, NUL, NUL, NUL, NUL] }) :=
  ((C11_updateCodeValue exampleReady '7' (by decide)
    ((WellFormedCode_iff _).2 ⟨[], rfl, by decide, by decide⟩)).2.1 (by decide)).1

/-! ## The pending code in every run -/

theorem keyToAction_NUL : keyToAction NUL = actionEnum.NOTHING := by decide

theorem clearSecretCode_wellFormed (m : Machine) (h : WellFormedCode m.secretCode) :
    WellFormedCode (clearSecretCode m).secretCode := by
  obtain ⟨s, hs, hlen, -⟩ := (WellFormedCode_iff _).1 h
  refine (WellFormedCode_iff _).2 ⟨[], ?_, by decide, by decide⟩
  show (List.range 6).foldl (fun b i => b.set i NUL) m.secretCode = codeBuffer []
  rw [hs, clear_codeBuffer s hlen]

theorem doAction_wellFormed (key : Char) (m : Machine) (h : WellFormedCode m.secretCode) :
    WellFormedCode (doAction key m).2.secretCode := by
  have ha : (doAction_alert key m).secretCode = m.secretCode := by
    unfold doAction_alert; split_ifs <;> rfl
  rw [← ha] at h
  unfold doAction
  generalize doAction_alert key m = m1 at h
  dsimp only
  split
  · unfold nextScreen nextScreen_CODE
    split <;> dsimp only <;> (try split_ifs) <;>
      first
        | exact h
        | exact clearSecretCode_wellFormed m1 h
  · unfold previousScreen
    split
    · exact clearSecretCode_wellFormed _ h
    · exact h
  · next hk =>
    split_ifs
    · exact applyEdit_wellFormed (CodeEdit.append key) m1
        (fun c hc => by
          injection hc with hc
          subst hc
          intro hn
          rw [hn, keyToAction_NUL] at hk
          cases hk) h
    · exact h
  · split_ifs
    · exact applyEdit_wellFormed CodeEdit.delete m1 (fun c hc => by cases hc) h
    · exact h
  · exact h

theorem manageState_secretCode (isNew : Bool) (m : Machine) :
    (manageState isNew m).secretCode = m.secretCode := by
  unfold manageState
  split <;> (try rfl)
  split_ifs <;> rfl

theorem runApp_wellFormed (gpio : Option GPIO_Value_Type) (keyRead : Option Char)
    (m : Machine) (h : WellFormedCode m.secretCode) :
    WellFormedCode (runApp gpio keyRead m).2.secretCode := by
  have hp : (runApp_poll gpio m).2.secretCode = m.secretCode := by
    cases hf : m.fstRun
    · obtain ⟨l, lp, hp⟩ := runApp_poll_later gpio m hf
      rw [hp]
    · obtain ⟨lp, hp⟩ := runApp_poll_first gpio m hf
      rw [hp]
  have hb : WellFormedCode (runApp_events gpio m).secretCode := by
    rcases runApp_events_cases gpio m with ⟨hc, -, -⟩ | hc
    · rw [hc, hp]; exact h
    · rw [hc]
      exact doAction_wellFormed '!' _ (by rw [hp]; exact h)
  rcases keyRead with _ | key
  · rw [runApp_none]; exact hb
  · rw [runApp_some, runApp_manage_eq]
    show WellFormedCode (manageState _ _).secretCode
    rw [manageState_secretCode]
    show WellFormedCode (runApp_key key (runApp_events gpio m)).secretCode
    rcases runApp_key_cases key (runApp_events gpio m) with ⟨-, -, hc⟩ | ⟨-, kp, hc⟩
    · rw [hc]
      exact doAction_wellFormed key _ hb
    · rw [hc]; exact hb

/-- In every run the pending-code buffer is well-formed: the pending code never has more
than 6 characters. -/
theorem runTicks_wellFormedCode (inputs : List TickInput) :
    WellFormedCode (runTicks inputs initial).secretCode := by
  suffices h : ∀ m : Machine, WellFormedCode m.secretCode →
      WellFormedCode (runTicks inputs m).secretCode from
    h initial ((WellFormedCode_iff _).2 ⟨[], rfl, by decide, by decide⟩)
  induction inputs with
  | nil => intro m hm; exact hm
  | cons i is ih =>
    intro m hm
    rw [runTicks_cons]
    exact ih _ (runApp_wellFormed i.1 i.2 m hm)

/-! ## A failing read of the lock sensor -/

/-- C12 does not hold of the code: `lockStateChanged` answers a failed `GPIO_GetValue` with
`return -1`, which its return type `bool` turns into `true`. For every machine, a tick whose
sensor read fails therefore performs the forced action `doAction '!'` exactly as after a
sensor edge, and it returns `0` whenever the key read succeeds: the tick is not aborted and
no fault is reported.
On the state after one quiet tick (`SELECT`, no alert yet) the failed read raises the
one-shot alert: the alert flag changes and the alert telemetry is sent.
On the run `reopenWhileOpen`, which ends in `WAIT` with the sensor known open, the failed
read takes the machine from `WAIT` to `OPEN`. -/
theorem C12_failed_sensor_read :
    (∀ m : Machine, lockStateChanged none m = (true, m))
    ∧ (∀ m : Machine, runApp_events none m
        = { (doAction '!' (runApp_poll none m).2).2 with
            appState := { (doAction '!' (runApp_poll none m).2).2.appState with
              redrawRequired := (doAction '!' (runApp_poll none m).2).1 } })
    ∧ (∀ (m : Machine) (key : Char), (runApp none (some key) m).1 = 0)
    ∧ ((runTicks [closedTick NUL] initial).alert = false
      ∧ (runTicks [closedTick NUL] initial).trace = []
      ∧ (runApp none (some NUL) (runTicks [closedTick NUL] initial)).1 = 0
      ∧ (runApp none (some NUL) (runTicks [closedTick NUL] initial)).2.alert = true
      ∧ (runApp none (some NUL) (runTicks [closedTick NUL] initial)).2.trace
          = [Event.Log_Debug "Alert!\n",
              Event.SendTelemetry "ButtonPress" "Alert! Lock open."])
    ∧ ((runTicks reopenWhileOpen initial).appState.appState = appStateEnum.WAIT
      ∧ (runApp none (some NUL) (runTicks reopenWhileOpen initial)).1 = 0
      ∧ (runApp none (some NUL) (runTicks reopenWhileOpen initial)).2.appState.appState
          = appStateEnum.OPEN) := by
  refine ⟨fun m => rfl, ?_, ?_, by decide, by decide⟩
  · intro m
    have hch : (runApp_poll none m).1 = true := by
      unfold runApp_poll lockStateChanged
      dsimp only
      split_ifs <;> rfl
    unfold runApp_events
    generalize runApp_poll none m = cp at hch
    obtain ⟨changed, p⟩ := cp
    dsimp only at hch ⊢
    rw [hch]
    split_ifs with h1 h2
    · rfl
    · rfl
    · exact absurd rfl h2
  · intro m key
    rw [runApp_some, runApp_manage_eq]

/-! ## The entry effect of `WAIT`, tick by tick -/

theorem doAction_unlockCount (key : Char) (m : Machine) :
    unlockCount (doAction key m).2 = unlockCount m := by
  have ha : unlockCount (doAction_alert key m) = unlockCount m := by
    unfold doAction_alert unlockCount
    split_ifs
    · simp [List.count_append, List.count_cons]
    · rfl
  rw [← ha]
  unfold doAction
  generalize doAction_alert key m = m1
  dsimp only
  split
  · unfold nextScreen nextScreen_CODE
    split <;> dsimp only <;> (try split_ifs) <;>
      first
        | rfl
        | simp [unlockCount, List.count_append, List.count_cons, clearSecretCode]
  · unfold previousScreen
    split <;> rfl
  · unfold updateCodeValue
    dsimp only
    split_ifs <;> rfl
  · unfold removeDigitFromCodeValue
    dsimp only
    split_ifs <;> rfl
  · rfl

theorem runApp_poll_trace (gpio : Option GPIO_Value_Type) (m : Machine) :
    (runApp_poll gpio m).2.trace = m.trace
    ∧ (m.fstRun = false → (runApp_poll gpio m).2.appState.appState = m.appState.appState) := by
  cases hf : m.fstRun
  · obtain ⟨l, lp, hp⟩ := runApp_poll_later gpio m hf
    rw [hp]
    exact ⟨rfl, fun _ => rfl⟩
  · obtain ⟨lp, hp⟩ := runApp_poll_first gpio m hf
    rw [hp]
    exact ⟨rfl, fun h => (by cases h)⟩

theorem runApp_events_unlockCount (gpio : Option GPIO_Value_Type) (m : Machine) :
    unlockCount (runApp_events gpio m) = unlockCount m := by
  have hp : unlockCount (runApp_poll gpio m).2 = unlockCount m := by
    unfold unlockCount; rw [(runApp_poll_trace gpio m).1]
  rcases runApp_events_cases gpio m with ⟨hc, -, -⟩ | hc
  · rw [hc, hp]
  · rw [hc, ← hp]
    exact doAction_unlockCount '!' _

theorem runApp_key_unlockCount (key : Char) (b : Machine) :
    unlockCount (runApp_key key b) = unlockCount b := by
  rcases runApp_key_cases key b with ⟨-, -, hc⟩ | ⟨-, kp, hc⟩
  · rw [hc]
    exact doAction_unlockCount key { b with appState := { b.appState with isKeyPressed := true } }
  · rw [hc]; rfl

/-- Key handling that enters `WAIT` leaves a machine on which the entry effect of
`manageState` takes one of its three branches. -/
theorem runApp_key_enters_WAIT (key : Char) (b : Machine)
    (hb : b.appState.appState ≠ appStateEnum.WAIT)
    (hc : (runApp_key key b).appState.appState = appStateEnum.WAIT) :
    (runApp_key key b).appState.isReopen = true ∨ (runApp_key key b).appState.isEmpty = true
    ∨ (strlen (runApp_key key b).secretCode = 6
      ∧ strcmp (runApp_key key b).secretCode (runApp_key key b).savedCode = 0) := by
  obtain ⟨-, f2, f3⟩ := runApp_key_frame key b
  rcases runApp_key_cases key b with ⟨hk, hkp, -⟩ | ⟨-, kp, hkc⟩
  · obtain ⟨hmv, -⟩ := runApp_key_handled key _ hk hkp
    cases hmv with
    | stay _ h1 => exact absurd (h1.symm.trans hc) hb
    | accept _ _ hlen hv _ _ hr hcode =>
      rcases hv with hv | hv
      · exact Or.inr (Or.inl (f3.trans hv))
      · exact Or.inr (Or.inr ⟨by rw [hcode]; exact hlen, by rw [hcode, f2]; exact hv⟩)
    | reopen _ _ _ _ hr => exact Or.inl hr
    | _ => simp_all
  · rw [hkc] at hc
    exact absurd hc hb

/-- Without the entry condition `manageState` calls no `unlock`. -/
theorem runApp_manage_no_entry (c : Machine)
    (h : c.appState.appState ≠ appStateEnum.WAIT
      ∨ c.stateChanged_previousState = appStateEnum.WAIT) :
    unlockCount (runApp_manage c).2 = unlockCount c
    ∧ (c.appState.appState = appStateEnum.WAIT →
        (runApp_manage c).2 = { c with appState := { c.appState with redrawRequired := false } }) := by
  rw [runApp_manage_eq]
  by_cases hw : c.appState.appState = appStateEnum.WAIT
  · have hp : c.stateChanged_previousState = appStateEnum.WAIT := h.resolve_left (fun hn => hn hw)
    have hd : decide (c.appState.appState ≠ c.stateChanged_previousState) = false := by
      rw [hw, hp]; decide
    rw [hd]
    have hm : manageState false
        { c with
          stateChanged_previousState := c.appState.appState
          appState := { c.appState with redrawRequired := false } }
        = { c with appState := { c.appState with redrawRequired := false } } := by
      simp only [manageState, hw]
      cases c
      simp_all
    rw [hm]
    exact ⟨rfl, fun _ => rfl⟩
  · refine ⟨?_, fun h2 => absurd h2 hw⟩
    unfold manageState
    split
    · next hst => exact absurd hst hw
    · simp [unlockCount, List.count_append, List.count_cons]
    · simp [unlockCount, List.count_append, List.count_cons]
    · rfl

/-- The states from which one move leads into `WAIT`. -/
theorem Moves_into_WAIT {key : Char} {x y : Machine} (h : Moves key x y)
    (hy : y.appState.appState = appStateEnum.WAIT) :
    x.appState.appState = appStateEnum.WAIT ∨ x.appState.appState = appStateEnum.SELECT
    ∨ x.appState.appState = appStateEnum.CODE ∨ x.appState.appState = appStateEnum.CLOSED := by
  cases h with
  | stay _ h1 => exact Or.inl (h1.symm.trans hy)
  | menu _ _ h1 => rw [h1] at hy; cases hy
  | reject _ _ _ h1 => rw [h1] at hy; cases hy
  | accept h0 =>
    rcases h0 with h0 | h0
    · exact Or.inr (Or.inl h0)
    · exact Or.inr (Or.inr (Or.inl h0))
  | opened _ _ _ h1 => rw [h1] at hy; cases hy
  | closed _ _ _ h1 => rw [h1] at hy; cases hy
  | done _ _ h1 => rw [h1] at hy; cases hy
  | reopen h0 => exact Or.inr (Or.inr (Or.inr h0))
  | retry _ _ _ h1 => rw [h1] at hy; cases hy
  | lockout _ _ _ h1 => rw [h1] at hy; cases hy
  | unlocked _ _ h1 => rw [h1] at hy; cases hy
  | back _ _ h1 => rw [h1] at hy; cases hy

/-- The states to which one move leads from `WAIT`. -/
theorem Moves_from_WAIT {key : Char} {x y : Machine} (h : Moves key x y)
    (hx : x.appState.appState = appStateEnum.WAIT) :
    y.appState.appState = appStateEnum.WAIT ∨ y.appState.appState = appStateEnum.OPEN := by
  cases h with
  | stay _ h1 => exact Or.inl (h1.trans hx)
  | menu h0 => rw [hx] at h0; cases h0
  | reject h0 => rcases h0 with h0 | h0 <;> (rw [hx] at h0; cases h0)
  | accept h0 => rcases h0 with h0 | h0 <;> (rw [hx] at h0; cases h0)
  | opened _ _ _ h1 => exact Or.inr h1
  | closed h0 => rw [hx] at h0; cases h0
  | done h0 => rw [hx] at h0; cases h0
  | reopen h0 => rw [hx] at h0; cases h0
  | retry h0 => rw [hx] at h0; cases h0
  | lockout h0 => rw [hx] at h0; cases h0
  | unlocked h0 => rw [hx] at h0; cases h0
  | back h0 => rw [hx] at h0; cases h0

/-- C13 does not hold of the code: an entry into `WAIT` is missed on the run `missedEntry`.
The run `openedInAbortedTick` leaves `WAIT` for `OPEN` in a tick whose key read fails;
`runApp` returns before `stateChanged`, whose static still remembers `WAIT`. The next tick
goes from `OPEN` through `CLOSED` to `WAIT` by the reopen key; `stateChanged` reports no
change, no `unlock` is called in that tick or in the next, and `isReopen` stays set. -/
theorem C13_missed_entry :
    (runTicks openedInAbortedTick initial).appState.appState = appStateEnum.OPEN
    ∧ (runTicks openedInAbortedTick initial).stateChanged_previousState = appStateEnum.WAIT
    ∧ (runTicks missedEntry initial).appState.appState = appStateEnum.WAIT
    ∧ unlockCount (runTicks missedEntry initial)
        = unlockCount (runTicks openedInAbortedTick initial)
    ∧ (runTicks missedEntry initial).appState.isReopen = true
    ∧ unlockCount (runTicks (missedEntry ++ [closedTick NUL]) initial)
        = unlockCount (runTicks openedInAbortedTick initial) := by
  decide

/-- What the comparison of `stateChanged` achieves as long as every tick reaches it: take
any run in which no key read fails (key values and sensor reads arbitrary, failing sensor
reads included) and one more tick whose key read succeeds.
(1) If the tick starts outside `WAIT` and ends in `WAIT`, it ends with the entry effect of
`manageState`: the machine at its end is `manageState true` of the machine after the key
handling (with `stateChanged` and the redraw flag updated), and `unlock` has been called
exactly once in the tick.
(2) If the tick starts in `WAIT` and ends in `WAIT`, then `WAIT` was not left in between,
`manageState` changes nothing and `unlock` is not called.
(3) If the tick ends outside `WAIT`, `unlock` is not called.
So every entry into `WAIT` is seen by `stateChanged`, in the tick of the entry, and only
then. -/
theorem WAIT_entry_effect_once (inputs : List TickInput) (gpio : Option GPIO_Value_Type)
    (key : Char) (hok : ∀ i ∈ inputs, i.2 ≠ none) :
    ((runTicks inputs initial).appState.appState ≠ appStateEnum.WAIT →
      (runApp gpio (some key) (runTicks inputs initial)).2.appState.appState
        = appStateEnum.WAIT →
      (runApp gpio (some key) (runTicks inputs initial)).2
        = manageState true
            { runApp_key key (runApp_events gpio (runTicks inputs initial)) with
              stateChanged_previousState := appStateEnum.WAIT
              appState :=
                { (runApp_key key (runApp_events gpio (runTicks inputs initial))).appState with
                  redrawRequired := false } }
      ∧ unlockCount (runApp gpio (some key) (runTicks inputs initial)).2
          = unlockCount (runTicks inputs initial) + 1)
    ∧ ((runTicks inputs initial).appState.appState = appStateEnum.WAIT →
      (runApp gpio (some key) (runTicks inputs initial)).2.appState.appState
        = appStateEnum.WAIT →
      (runApp_events gpio (runTicks inputs initial)).appState.appState = appStateEnum.WAIT
      ∧ (runApp gpio (some key) (runTicks inputs initial)).2
          = { runApp_key key (runApp_events gpio (runTicks inputs initial)) with
              appState :=
                { (runApp_key key (runApp_events gpio (runTicks inputs initial))).appState with
                  redrawRequired := false } }
      ∧ unlockCount (runApp gpio (some key) (runTicks inputs initial)).2
          = unlockCount (runTicks inputs initial))
    ∧ ((runApp gpio (some key) (runTicks inputs initial)).2.appState.appState
        ≠ appStateEnum.WAIT →
      unlockCount (runApp gpio (some key) (runTicks inputs initial)).2
        = unlockCount (runTicks inputs initial)) := by
  have hm := runTicks_TickInv inputs
  have hsync := runTicks_previousState inputs hok
  generalize runTicks inputs initial = m at hm hsync
  obtain ⟨e1, e2, e3, -, e5⟩ := runApp_events_inv gpio m hm
  obtain ⟨emv, efr⟩ := runApp_events_moves gpio m
  obtain ⟨k1, k2, k3⟩ := runApp_key_inv key _ e1 e3
  obtain ⟨-, -, r3, -⟩ := runApp_manage_inv _ k1 (k2.trans e2) k3
  obtain ⟨p1, p2⟩ := runApp_poll_frame gpio m
  obtain ⟨f1, -, -⟩ := runApp_key_frame key (runApp_events gpio m)
  have hcnt : unlockCount (runApp_key key (runApp_events gpio m)) = unlockCount m := by
    rw [runApp_key_unlockCount, runApp_events_unlockCount]
  have hprev : (runApp_key key (runApp_events gpio m)).stateChanged_previousState
      = m.appState.appState := by
    rw [f1, efr.2.2.2.2.1, p1, hsync]
  rw [runApp_some, r3]
  refine ⟨?_, ?_, ?_⟩
  · intro hnw hw
    have hbw : (runApp_events gpio m).appState.appState ≠ appStateEnum.WAIT :=
      fun h => hnw (p2 (e5 h))
    have hpw : (runApp_key key (runApp_events gpio m)).stateChanged_previousState
        ≠ appStateEnum.WAIT := by
      rw [hprev]; exact hnw
    obtain ⟨msg, hmsg⟩ := runApp_manage_unlock _ hw hpw (runApp_key_enters_WAIT key _ hbw hw)
    constructor
    · rw [runApp_manage_eq]
      have hd : decide ((runApp_key key (runApp_events gpio m)).appState.appState
          ≠ (runApp_key key (runApp_events gpio m)).stateChanged_previousState) = true := by
        rw [hw]
        exact decide_eq_true (fun h => hpw h.symm)
      rw [hd, hw]
    · unfold unlockCount at hcnt ⊢
      rw [hmsg, List.count_append, hcnt]
      simp [List.count_cons]
  · intro hmw hw
    have hpw : (runApp_key key (runApp_events gpio m)).stateChanged_previousState
        = appStateEnum.WAIT := by
      rw [hprev]; exact hmw
    obtain ⟨n1, n2⟩ := runApp_manage_no_entry (runApp_key key (runApp_events gpio m)) (Or.inr hpw)
    refine ⟨?_, n2 hw, n1.trans hcnt⟩
    -- `WAIT` is not left by the forced action: from `OPEN` the key handling cannot return
    have hf : m.fstRun = false := by
      cases hfr : m.fstRun
      · rfl
      · have := (hm.2.2 hfr).1
        rw [hmw] at this
        cases this
    have hpst : (runApp_poll gpio m).2.appState.appState = appStateEnum.WAIT :=
      ((runApp_poll_trace gpio m).2 hf).trans hmw
    rcases Moves_from_WAIT emv hpst with hbw | hbo
    · exact hbw
    · exfalso
      have hcb : ∀ s : appStateEnum, (runApp_events gpio m).appState.appState = s →
          s ≠ appStateEnum.OPEN → False := fun s hs hne => hne (hs.symm.trans hbo)
      rcases runApp_key_cases key (runApp_events gpio m) with ⟨hk, hkp, -⟩ | ⟨-, kp, hkc⟩
      · obtain ⟨hmv, -⟩ := runApp_key_handled key _ hk hkp
        rcases Moves_into_WAIT hmv hw with h | h | h | h
        · exact hcb _ h (by decide)
        · exact hcb _ h (by decide)
        · exact hcb _ h (by decide)
        · exact hcb _ h (by decide)
      · rw [hkc] at hw
        exact hcb _ hw (by decide)
  · intro hnw
    exact (runApp_manage_no_entry _ (Or.inl hnw)).1.trans hcnt

/-- On the run `beforeConfirm` the tick of the confirm key enters `WAIT` and calls `unlock`
once. -/
theorem WAIT_entry_effect_once_example :
    unlockCount (runApp (some LOCK_CLOSED) (some '#') (runTicks beforeConfirm initial)).2
      = unlockCount (runTicks beforeConfirm initial) + 1 :=
  ((WAIT_entry_effect_once beforeConfirm (some LOCK_CLOSED) '#' (by decide)).1
    (by decide) (by decide)).2

/-! ## The sensor position in the session record -/

theorem manageState_sensor (isNew : Bool) (m : Machine) :
    (manageState isNew m).appState.lockState = m.appState.lockState
    ∧ (manageState isNew m).lockStateChanged_previousState = m.lockStateChanged_previousState
    ∧ (manageState isNew m).fstRun = m.fstRun := by
  unfold manageState
  split <;> (try exact ⟨rfl, rfl, rfl⟩)
  split_ifs <;> exact ⟨rfl, rfl, rfl⟩

/-- Only the poll at its beginning writes the sensor position in a tick, and after a tick
the first tick is over. -/
theorem runApp_sensor (gpio : Option GPIO_Value_Type) (keyRead : Option Char) (m : Machine) :
    (runApp gpio keyRead m).2.appState.lockState = (runApp_poll gpio m).2.appState.lockState
    ∧ (runApp gpio keyRead m).2.lockStateChanged_previousState
        = (runApp_poll gpio m).2.lockStateChanged_previousState
    ∧ (runApp gpio keyRead m).2.fstRun = false := by
  have hpf : (runApp_poll gpio m).2.fstRun = false := by
    cases hf : m.fstRun
    · obtain ⟨l, lp, hp⟩ := runApp_poll_later gpio m hf
      rw [hp]; exact hf
    · obtain ⟨lp, hp⟩ := runApp_poll_first gpio m hf
      rw [hp]
  obtain ⟨-, efr⟩ := runApp_events_moves gpio m
  have hb : (runApp_events gpio m).appState.lockState = (runApp_poll gpio m).2.appState.lockState
      ∧ (runApp_events gpio m).lockStateChanged_previousState
          = (runApp_poll gpio m).2.lockStateChanged_previousState
      ∧ (runApp_events gpio m).fstRun = false :=
    ⟨efr.2.2.2.2.2.2, efr.2.2.2.2.2.1, efr.1.trans hpf⟩
  rcases keyRead with _ | key
  · rw [runApp_none]; exact hb
  · rw [runApp_some, runApp_manage_eq]
    obtain ⟨s1, s2, s3⟩ := manageState_sensor
      (decide ((runApp_key key (runApp_events gpio m)).appState.appState
        ≠ (runApp_key key (runApp_events gpio m)).stateChanged_previousState))
      { runApp_key key (runApp_events gpio m) with
        stateChanged_previousState := (runApp_key key (runApp_events gpio m)).appState.appState
        appState := { (runApp_key key (runApp_events gpio m)).appState with
          redrawRequired := false } }
    have hc : (runApp_key key (runApp_events gpio m)).appState.lockState
          = (runApp_events gpio m).appState.lockState
        ∧ (runApp_key key (runApp_events gpio m)).lockStateChanged_previousState
          = (runApp_events gpio m).lockStateChanged_previousState
        ∧ (runApp_key key (runApp_events gpio m)).fstRun = (runApp_events gpio m).fstRun := by
      rcases runApp_key_cases key (runApp_events gpio m) with ⟨-, -, hk⟩ | ⟨-, kp, hk⟩
      · have hfr := doAction_frame key
          { runApp_events gpio m with
            appState := { (runApp_events gpio m).appState with isKeyPressed := true } }
        rw [hk]
        exact ⟨hfr.2.2.2.2.2.2, hfr.2.2.2.2.2.1, hfr.1⟩
      · rw [hk]
        exact ⟨rfl, rfl, rfl⟩
    exact ⟨s1.trans (hc.1.trans hb.1), s2.trans (hc.2.1.trans hb.2.1),
      s3.trans (hc.2.2.trans hb.2.2)⟩

/-- What the poll makes of the sensor position when the read delivers `v`. -/
theorem runApp_poll_sensor (v : GPIO_Value_Type) (m : Machine) :
    (runApp_poll (some v) m).2.lockStateChanged_previousState = v
    ∧ (m.fstRun = true → (runApp_poll (some v) m).2.appState.lockState = LOCK_CLOSED)
    ∧ (m.fstRun = false →
        (runApp_poll (some v) m).2.appState.lockState
          = if v = m.lockStateChanged_previousState then m.appState.lockState else v) := by
  unfold runApp_poll lockStateChanged
  by_cases hv : v = m.lockStateChanged_previousState
  · cases hf : m.fstRun <;> simp [hv, hf, appStateStructInit]
  · cases hf : m.fstRun <;> simp [hv, hf, appStateStructInit]

/-- C14 does not hold of the code: the first call of `runApp` polls the sensor before it
initialises the session record, and `appStateStructInit` then sets `lockState` to
`GPIO_Value_Low`. When the first read delivers `GPIO_Value_High`, the static of
`lockStateChanged` remembers `High` while `lockState` is `Low` after the tick; and as long as
the sensor keeps reading `High` there is no edge and `lockState` stays `Low`, whatever the
key reads deliver. -/
theorem C14_first_reading_lost :
    ((runApp (some LOCK_OPEN) (some NUL) initial).1 = 0
      ∧ (runApp (some LOCK_OPEN) (some NUL) initial).2.appState.lockState = LOCK_CLOSED
      ∧ (runApp (some LOCK_OPEN) (some NUL) initial).2.lockStateChanged_previousState
          = LOCK_OPEN)
    ∧ (∀ keys : List (Option Char), keys ≠ [] →
        (runTicks (openTicks keys) initial).appState.lockState = LOCK_CLOSED
        ∧ (runTicks (openTicks keys) initial).lockStateChanged_previousState = LOCK_OPEN) := by
  refine ⟨by decide, ?_⟩
  have step : ∀ (k : Option Char) (m : Machine),
      (m.fstRun = true ∨ (m.appState.lockState = LOCK_CLOSED
        ∧ m.lockStateChanged_previousState = LOCK_OPEN)) →
      (runApp (some LOCK_OPEN) k m).2.fstRun = false
      ∧ (runApp (some LOCK_OPEN) k m).2.appState.lockState = LOCK_CLOSED
      ∧ (runApp (some LOCK_OPEN) k m).2.lockStateChanged_previousState = LOCK_OPEN := by
    intro k m hm
    obtain ⟨s1, s2, s3⟩ := runApp_sensor (some LOCK_OPEN) k m
    obtain ⟨p1, p2, p3⟩ := runApp_poll_sensor LOCK_OPEN m
    refine ⟨s3, ?_, s2.trans p1⟩
    rw [s1]
    cases hf : m.fstRun
    · rcases hm with hm | ⟨hm1, hm2⟩
      · rw [hf] at hm; cases hm
      · rw [p3 hf, hm2, hm1]
        rfl
    · exact p2 hf
  have all : ∀ (keys : List (Option Char)) (m : Machine),
      (m.fstRun = false ∧ m.appState.lockState = LOCK_CLOSED
        ∧ m.lockStateChanged_previousState = LOCK_OPEN) →
      (runTicks (openTicks keys) m).appState.lockState = LOCK_CLOSED
      ∧ (runTicks (openTicks keys) m).lockStateChanged_previousState = LOCK_OPEN := by
    intro keys
    induction keys with
    | nil => intro m hm; exact hm.2
    | cons k ks ih =>
      intro m hm
      exact ih _ (step k m (Or.inr hm.2))
  intro keys hne
  cases keys with
  | nil => exact absurd rfl hne
  | cons k ks => exact all ks _ (step k initial (Or.inl rfl))

/-- Once record and static agree, they agree after every tick, and a tick whose sensor read
succeeds leaves the position it read in both. -/
theorem runApp_InSync (gpio : Option GPIO_Value_Type) (keyRead : Option Char) (m : Machine)
    (h : InSync m) :
    InSync (runApp gpio keyRead m).2
    ∧ (∀ v, gpio = some v → (runApp gpio keyRead m).2.appState.lockState = v) := by
  obtain ⟨hf, hs⟩ := h
  obtain ⟨s1, s2, s3⟩ := runApp_sensor gpio keyRead m
  rcases gpio with _ | v
  · obtain ⟨l, lp, hp⟩ := runApp_poll_later none m hf
    have hl : (runApp_poll none m).2 = m := by
      unfold runApp_poll lockStateChanged
      simp [hf]
    rw [hl] at s1 s2
    exact ⟨⟨s3, by rw [s1, s2]; exact hs⟩, fun v hv => (by cases hv)⟩
  · obtain ⟨p1, -, p3⟩ := runApp_poll_sensor v m
    have hl : (runApp (some v) keyRead m).2.appState.lockState = v := by
      rw [s1, p3 hf]
      split_ifs with hv
      · rw [hs, ← hv]
      · rfl
    refine ⟨⟨s3, by rw [hl, s2, p1]⟩, ?_⟩
    intro w hw
    injection hw with hw
    rw [← hw]; exact hl

/-- The first tick leaves record and static in agreement unless its read delivers
`GPIO_Value_High`. -/
theorem first_tick_InSync (gpio : Option GPIO_Value_Type) (keyRead : Option Char)
    (h : gpio ≠ some LOCK_OPEN) : InSync (runApp gpio keyRead initial).2 := by
  obtain ⟨s1, s2, s3⟩ := runApp_sensor gpio keyRead initial
  refine ⟨s3, ?_⟩
  rw [s1, s2]
  rcases gpio with _ | v
  · rfl
  · cases v
    · rfl
    · exact absurd rfl h

/-- In a run whose first tick does not read `GPIO_Value_High`, every tick whose sensor read
succeeds ends with `lockState` equal to the position read, which is also the position
`lockStateChanged` remembers. -/
theorem lockState_tracks_sensor (g : Option GPIO_Value_Type) (k : Option Char)
    (rest : List TickInput) (hg : g ≠ some LOCK_OPEN) :
    InSync (runTicks ((g, k) :: rest) initial)
    ∧ (∀ (v : GPIO_Value_Type) (keyRead : Option Char),
        (runTicks ((g, k) :: rest ++ [(some v, keyRead)]) initial).appState.lockState = v
        ∧ (runTicks ((g, k) :: rest ++ [(some v, keyRead)]) initial
            ).lockStateChanged_previousState = v) := by
  have hall : ∀ (is : List TickInput) (m : Machine), InSync m → InSync (runTicks is m) := by
    intro is
    induction is with
    | nil => intro m hm; exact hm
    | cons i is ih =>
      intro m hm
      exact ih _ (runApp_InSync i.1 i.2 m hm).1
  have h1 : InSync (runTicks ((g, k) :: rest) initial) := by
    rw [runTicks_cons]
    exact hall rest _ (first_tick_InSync g k hg)
  refine ⟨h1, fun v keyRead => ?_⟩
  have hsplit : (g, k) :: rest ++ [(some v, keyRead)]
      = ((g, k) :: rest) ++ [(some v, keyRead)] := rfl
  rw [hsplit, runTicks_append, runTicks_cons, runTicks_nil]
  obtain ⟨⟨-, hs⟩, hv⟩ := runApp_InSync (some v) keyRead _ h1
  have := hv v rfl
  exact ⟨this, by rw [← hs]; exact this⟩

end LockBox
